import Mathlib

/-!
Verification of the p2p-server-sync replication engine against its
specification.  The JavaScript source is shallowly embedded: vector clocks
become finite association lists from node id to counter, the stateful
managers become explicit state-passing functions, and platform builtins
(the durable store, `JSON`, node `crypto`) are modelled from the spec of
their contracts where noted.
-/

/- ## Vector clocks (src/sync/vector-clock) -/

/-- A vector clock's entry map (`this.clock` of a `VectorClock` instance):
an association list from node id to counter.  The `VectorClock` constructor
sanitizes entries to non-negative numbers, so instance entries are `Nat`. -/
abbrev ClockMap := List (String × Nat)

/-- Reading an entry, `this.clock[nodeId] || 0`: absent keys read as 0. -/
def lookupC (m : ClockMap) (k : String) : Nat := ((m.lookup k).getD 0)

/-- The keys of a clock map (`Object.keys`). -/
def keysOf (m : ClockMap) : List String := m.map Prod.fst

/-- `new Set([...Object.keys(a), ...Object.keys(b)])`: the union of the key
sets of the two clocks. -/
def unionKeys (a b : ClockMap) : List String := (keysOf a ++ keysOf b).dedup

/-- The loop body of `ClockComparison.compare`: walk the union of node ids
carrying the `lessThan` / `greaterThan` / `identical` flags, with the early
exit to Concurrent as soon as both `lessThan` and `greaterThan` hold. -/
def compareAux (a b : ClockMap) : List String → Bool → Bool → Bool → Int
  | [], lessThan, greaterThan, identical =>
      if identical then 2
      else if lessThan && !greaterThan then -1
      else if greaterThan && !lessThan then 1
      else 0
  | k :: ks, lessThan, greaterThan, identical =>
      if lookupC a k < lookupC b k then
        -- lessThan := true; identical := false; early exit iff greaterThan
        if greaterThan then 0 else compareAux a b ks true greaterThan false
      else if lookupC b k < lookupC a k then
        -- greaterThan := true; identical := false; early exit iff lessThan
        if lessThan then 0 else compareAux a b ks lessThan true false
      else
        if lessThan && greaterThan then 0
        else compareAux a b ks lessThan greaterThan identical

/-- `ClockComparison.compare` on two (sanitized) clocks:
-1 = Before, 0 = Concurrent, 1 = After, 2 = Identical. -/
def compareClocks (a b : ClockMap) : Int :=
  compareAux a b (unionKeys a b) false false true

/-- `compare` including the invalid-argument branch: a `null` or non-object
`other` (modelled `none`) returns 0 (Concurrent). -/
def compareJS (a : ClockMap) : Option ClockMap → Int
  | some b => compareClocks a b
  | none => 0

/- ### Characterization of `compare` -/

theorem lookupC_eq_zero_of_not_mem {m : ClockMap} {k : String}
    (h : k ∉ keysOf m) : lookupC m k = 0 := by
  induction m with
  | nil => rfl
  | cons p ps ih =>
      simp only [keysOf, List.map_cons, List.mem_cons, not_or] at h
      simp only [lookupC, List.lookup]
      have hb : (k == p.1) = false := by
        simp only [beq_eq_false_iff_ne]; exact h.1
      rw [hb]
      exact ih h.2

theorem mem_unionKeys {a b : ClockMap} {k : String} :
    k ∈ unionKeys a b ↔ k ∈ keysOf a ∨ k ∈ keysOf b := by
  simp [unionKeys, List.mem_dedup]

/-- Outside the union of keys both clocks read 0. -/
theorem lookupC_eq_of_not_mem_union {a b : ClockMap} {k : String}
    (h : k ∉ unionKeys a b) : lookupC a k = 0 ∧ lookupC b k = 0 := by
  rw [mem_unionKeys, not_or] at h
  exact ⟨lookupC_eq_zero_of_not_mem h.1, lookupC_eq_zero_of_not_mem h.2⟩

/-- The final classification of `compare` as a function of whether some key
is strictly less and some key strictly greater. -/
def classifyCmp (L G : Bool) : Int :=
  if !L && !G then 2
  else if L && !G then -1
  else if G && !L then 1
  else 0

/-- Invariant of the comparison loop: with the `identical` flag agreeing
with the other two flags, the loop computes the classification of "some
key is strictly less / some key is strictly greater". -/
theorem compareAux_spec (a b : ClockMap) (ks : List String) :
    ∀ lt gt : Bool,
      compareAux a b ks lt gt (!lt && !gt) =
        classifyCmp (lt || ks.any fun k => lookupC a k < lookupC b k)
          (gt || ks.any fun k => lookupC b k < lookupC a k) := by
  induction ks with
  | nil => intro lt gt; cases lt <;> cases gt <;> rfl
  | cons k ks ih =>
    intro lt gt
    rcases lt_trichotomy (lookupC a k) (lookupC b k) with h | h | h
    · have h2 : ¬ lookupC b k < lookupC a k := by omega
      cases gt
      · have hih := ih true false
        simp only [Bool.not_true, Bool.not_false, Bool.false_and] at hih
        simp [compareAux, h, h2, hih, classifyCmp]
      · simp [compareAux, h, h2, classifyCmp]
    · have h1 : ¬ lookupC a k < lookupC b k := by omega
      have h2 : ¬ lookupC b k < lookupC a k := by omega
      cases lt <;> cases gt
      · have hih := ih false false
        simp only [Bool.not_false, Bool.true_and] at hih
        simp [compareAux, h1, h2, hih]
      · have hih := ih false true
        simp only [Bool.not_false, Bool.not_true, Bool.true_and,
          Bool.and_false] at hih
        simp [compareAux, h1, h2, hih]
      · have hih := ih true false
        simp only [Bool.not_false, Bool.not_true, Bool.false_and] at hih
        simp [compareAux, h1, h2, hih]
      · simp [compareAux, h1, h2, classifyCmp]
    · have h1 : ¬ lookupC a k < lookupC b k := by omega
      cases lt
      · have hih := ih false true
        simp only [Bool.not_false, Bool.not_true, Bool.true_and,
          Bool.and_false] at hih
        simp [compareAux, h, h1, hih, classifyCmp]
      · simp [compareAux, h, h1, classifyCmp]

/-- `compare` equals the classification over the union of keys. -/
theorem compareClocks_eq_classify (a b : ClockMap) :
    compareClocks a b =
      classifyCmp ((unionKeys a b).any fun k => lookupC a k < lookupC b k)
        ((unionKeys a b).any fun k => lookupC b k < lookupC a k) := by
  have h := compareAux_spec a b (unionKeys a b) false false
  simpa using h

theorem any_lt_iff (a b : ClockMap) :
    (((unionKeys a b).any fun k => lookupC a k < lookupC b k) = true) ↔
      ∃ k, lookupC a k < lookupC b k := by
  rw [List.any_eq_true]
  constructor
  · rintro ⟨k, _, hk⟩; exact ⟨k, by simpa using hk⟩
  · rintro ⟨k, hk⟩
    refine ⟨k, ?_, by simpa using hk⟩
    by_contra hmem
    obtain ⟨h1, h2⟩ := lookupC_eq_of_not_mem_union hmem
    omega

theorem any_gt_iff (a b : ClockMap) :
    (((unionKeys a b).any fun k => lookupC b k < lookupC a k) = true) ↔
      ∃ k, lookupC b k < lookupC a k := by
  rw [List.any_eq_true]
  constructor
  · rintro ⟨k, _, hk⟩; exact ⟨k, by simpa using hk⟩
  · rintro ⟨k, hk⟩
    refine ⟨k, ?_, by simpa using hk⟩
    by_contra hmem
    obtain ⟨h1, h2⟩ := lookupC_eq_of_not_mem_union hmem
    omega

theorem compareClocks_eq_neg_one_iff (a b : ClockMap) :
    compareClocks a b = -1 ↔
      (∃ k, lookupC a k < lookupC b k) ∧ ¬ ∃ k, lookupC b k < lookupC a k := by
  have HL := any_lt_iff a b
  have HG := any_gt_iff a b
  rw [compareClocks_eq_classify]
  cases hL : ((unionKeys a b).any fun k => lookupC a k < lookupC b k) <;>
    cases hG : ((unionKeys a b).any fun k => lookupC b k < lookupC a k) <;>
      rw [hL] at HL <;> rw [hG] at HG <;>
        simp only [false_iff, true_iff, Bool.false_eq_true,
          Bool.true_eq_false] at HL HG <;>
        simp [classifyCmp, HL, HG]

theorem compareClocks_eq_one_iff (a b : ClockMap) :
    compareClocks a b = 1 ↔
      (∃ k, lookupC b k < lookupC a k) ∧ ¬ ∃ k, lookupC a k < lookupC b k := by
  have HL := any_lt_iff a b
  have HG := any_gt_iff a b
  rw [compareClocks_eq_classify]
  cases hL : ((unionKeys a b).any fun k => lookupC a k < lookupC b k) <;>
    cases hG : ((unionKeys a b).any fun k => lookupC b k < lookupC a k) <;>
      rw [hL] at HL <;> rw [hG] at HG <;>
        simp only [false_iff, true_iff, Bool.false_eq_true,
          Bool.true_eq_false] at HL HG <;>
        simp [classifyCmp, HL, HG]

theorem compareClocks_eq_two_iff (a b : ClockMap) :
    compareClocks a b = 2 ↔
      (¬ ∃ k, lookupC a k < lookupC b k) ∧ ¬ ∃ k, lookupC b k < lookupC a k := by
  have HL := any_lt_iff a b
  have HG := any_gt_iff a b
  rw [compareClocks_eq_classify]
  cases hL : ((unionKeys a b).any fun k => lookupC a k < lookupC b k) <;>
    cases hG : ((unionKeys a b).any fun k => lookupC b k < lookupC a k) <;>
      rw [hL] at HL <;> rw [hG] at HG <;>
        simp only [false_iff, true_iff, Bool.false_eq_true,
          Bool.true_eq_false] at HL HG <;>
        simp [classifyCmp, HL, HG]

theorem compareClocks_eq_zero_iff (a b : ClockMap) :
    compareClocks a b = 0 ↔
      (∃ k, lookupC a k < lookupC b k) ∧ ∃ k, lookupC b k < lookupC a k := by
  have HL := any_lt_iff a b
  have HG := any_gt_iff a b
  rw [compareClocks_eq_classify]
  cases hL : ((unionKeys a b).any fun k => lookupC a k < lookupC b k) <;>
    cases hG : ((unionKeys a b).any fun k => lookupC b k < lookupC a k) <;>
      rw [hL] at HL <;> rw [hG] at HG <;>
        simp only [false_iff, true_iff, Bool.false_eq_true,
          Bool.true_eq_false] at HL HG <;>
        simp [classifyCmp, HL, HG]
/- ### Claim C1 -/

/-- C1: `compare(other)` returns Before (-1) iff every entry of A is ≤ the
corresponding entry of B (absent keys read as 0) and at least one is
strictly less; After (1) iff every entry ≥ and at least one strictly
greater; Identical (2) iff all entries equal; Concurrent (0) otherwise;
and comparing against a null / non-object other returns Concurrent. -/
theorem C1_compare_spec (a b : ClockMap) :
    (compareJS a (some b) = -1 ↔
      (∀ k, lookupC a k ≤ lookupC b k) ∧ ∃ k, lookupC a k < lookupC b k) ∧
    (compareJS a (some b) = 1 ↔
      (∀ k, lookupC b k ≤ lookupC a k) ∧ ∃ k, lookupC b k < lookupC a k) ∧
    (compareJS a (some b) = 2 ↔ ∀ k, lookupC a k = lookupC b k) ∧
    (compareJS a (some b) = 0 ↔
      ¬ ((∀ k, lookupC a k ≤ lookupC b k) ∧ ∃ k, lookupC a k < lookupC b k) ∧
      ¬ ((∀ k, lookupC b k ≤ lookupC a k) ∧ ∃ k, lookupC b k < lookupC a k) ∧
      ¬ ∀ k, lookupC a k = lookupC b k) ∧
    compareJS a none = 0 := by
  have hle1 : (∀ k, lookupC a k ≤ lookupC b k) ↔
      ¬ ∃ k, lookupC b k < lookupC a k := by
    simp only [not_exists, not_lt]
  have hle2 : (∀ k, lookupC b k ≤ lookupC a k) ↔
      ¬ ∃ k, lookupC a k < lookupC b k := by
    simp only [not_exists, not_lt]
  refine ⟨?_, ?_, ?_, ?_, rfl⟩
  · rw [show compareJS a (some b) = compareClocks a b from rfl,
      compareClocks_eq_neg_one_iff, hle1]
    tauto
  · rw [show compareJS a (some b) = compareClocks a b from rfl,
      compareClocks_eq_one_iff, hle2]
    tauto
  · rw [show compareJS a (some b) = compareClocks a b from rfl,
      compareClocks_eq_two_iff]
    constructor
    · rintro ⟨h1, h2⟩ k
      have e1 := not_exists.mp h1 k
      have e2 := not_exists.mp h2 k
      omega
    · intro h
      constructor
      · rintro ⟨k, hk⟩; have := h k; omega
      · rintro ⟨k, hk⟩; have := h k; omega
  · rw [show compareJS a (some b) = compareClocks a b from rfl,
      compareClocks_eq_zero_iff, hle1, hle2]
    have heq : (∀ k, lookupC a k = lookupC b k) ↔
        (¬ ∃ k, lookupC a k < lookupC b k) ∧
          ¬ ∃ k, lookupC b k < lookupC a k := by
      constructor
      · intro h
        constructor
        · rintro ⟨k, hk⟩; have := h k; omega
        · rintro ⟨k, hk⟩; have := h k; omega
      · rintro ⟨h1, h2⟩ k
        have e1 := not_exists.mp h1 k
        have e2 := not_exists.mp h2 k
        omega
    rw [heq]
    tauto

/- ## dominanceRelation and deterministicWinner -/

/-- `ClockComparison.dominanceRelation`: map the four-valued compare onto
the relation names. -/
def dominanceRelation (a b : ClockMap) : String :=
  if compareClocks a b = 1 then "dominates"
  else if compareClocks a b = -1 then "dominated"
  else if compareClocks a b = 0 then "concurrent"
  else if compareClocks a b = 2 then "identical"
  else "unknown"

/-- Lexicographic three-way comparison of character lists. -/
def cmpChars : List Char → List Char → Int
  | [], [] => 0
  | [], _ :: _ => -1
  | _ :: _, [] => 1
  | c :: cs, d :: ds =>
      if c < d then -1 else if d < c then 1 else cmpChars cs ds

/-- Modelled from the spec: `String.prototype.localeCompare` (node builtin)
under the default locale on plain node ids, as code-point lexicographic
comparison: negative / zero / positive as the receiver sorts before, equal
to, after the argument. -/
def localeCompare (x y : String) : Int := cmpChars x.data y.data

theorem cmpChars_neg (xs ys : List Char) : cmpChars ys xs = -(cmpChars xs ys) := by
  induction xs generalizing ys with
  | nil => cases ys <;> rfl
  | cons c cs ih =>
      cases ys with
      | nil => rfl
      | cons d ds =>
          rcases lt_trichotomy c d with h | h | h
          · simp [cmpChars, h, not_lt_of_gt h]
          · subst h
            simp [cmpChars, ih ds]
          · simp [cmpChars, h, not_lt_of_gt h]

theorem cmpChars_eq_zero_iff (xs ys : List Char) :
    cmpChars xs ys = 0 ↔ xs = ys := by
  induction xs generalizing ys with
  | nil => cases ys <;> simp [cmpChars]
  | cons c cs ih =>
      cases ys with
      | nil => simp [cmpChars]
      | cons d ds =>
          rcases lt_trichotomy c d with h | h | h
          · rw [cmpChars, if_pos h]
            simp only [List.cons.injEq]
            constructor
            · intro he; omega
            · rintro ⟨he, _⟩; exact absurd he (ne_of_lt h)
          · subst h
            rw [cmpChars, if_neg (lt_irrefl c), if_neg (lt_irrefl c)]
            simp [ih]
          · rw [cmpChars, if_neg (not_lt_of_gt h), if_pos h]
            simp only [List.cons.injEq]
            constructor
            · intro he; omega
            · rintro ⟨he, _⟩; exact absurd he.symm (ne_of_lt h)

theorem cmpChars_total (xs ys : List Char) :
    cmpChars xs ys = -1 ∨ cmpChars xs ys = 0 ∨ cmpChars xs ys = 1 := by
  induction xs generalizing ys with
  | nil => cases ys <;> simp [cmpChars]
  | cons c cs ih =>
      cases ys with
      | nil => simp [cmpChars]
      | cons d ds =>
          rw [cmpChars]
          split
          · simp
          · split
            · simp
            · exact ih ds

/-- `ClockComparison.deterministicWinner`: causal order when comparable,
`localeCompare` tiebreak on the node ids when concurrent. -/
def deterministicWinner (a b : ClockMap) (thisId otherId : String) : String :=
  if dominanceRelation a b = "dominates" then "this"
  else if dominanceRelation a b = "dominated" then "other"
  else if dominanceRelation a b = "identical" then "identical"
  else if localeCompare thisId otherId > 0 then "this" else "other"

theorem compareClocks_total (a b : ClockMap) :
    compareClocks a b = -1 ∨ compareClocks a b = 0 ∨
      compareClocks a b = 1 ∨ compareClocks a b = 2 := by
  rw [compareClocks_eq_classify]
  cases ((unionKeys a b).any fun k => lookupC a k < lookupC b k) <;>
    cases ((unionKeys a b).any fun k => lookupC b k < lookupC a k) <;>
      simp [classifyCmp]

theorem compareClocks_swap_one (a b : ClockMap) :
    compareClocks a b = 1 ↔ compareClocks b a = -1 := by
  rw [compareClocks_eq_one_iff, compareClocks_eq_neg_one_iff]

theorem compareClocks_swap_two (a b : ClockMap) :
    compareClocks a b = 2 ↔ compareClocks b a = 2 := by
  rw [compareClocks_eq_two_iff, compareClocks_eq_two_iff]
  tauto

theorem compareClocks_swap_zero (a b : ClockMap) :
    compareClocks a b = 0 ↔ compareClocks b a = 0 := by
  rw [compareClocks_eq_zero_iff, compareClocks_eq_zero_iff]
  tauto
/- ### Claim C2 -/

/-- C2 (amended): `deterministicWinner` is symmetric whenever the two node
ids are distinct: if `A.deterministicWinner(B, x, y)` is `"this"` then
`B.deterministicWinner(A, y, x)` is `"other"` and vice versa; when the
clocks are not Concurrent the causal order decides, and when Concurrent
the winner is decided by lexicographic order of the two node ids.  (When
`x = y` and the clocks are concurrent both sides return `"other"`.) -/
theorem C2_deterministicWinner_symmetric (a b : ClockMap) (x y : String)
    (hxy : x ≠ y) :
    (deterministicWinner a b x y = "this" ↔
      deterministicWinner b a y x = "other") ∧
    (deterministicWinner a b x y = "other" ↔
      deterministicWinner b a y x = "this") ∧
    (deterministicWinner a b x y = "identical" ↔
      deterministicWinner b a y x = "identical") ∧
    (compareClocks a b = 1 → deterministicWinner a b x y = "this") ∧
    (compareClocks a b = -1 → deterministicWinner a b x y = "other") ∧
    (compareClocks a b = 2 → deterministicWinner a b x y = "identical") ∧
    (compareClocks a b = 0 →
      (deterministicWinner a b x y = "this" ↔ localeCompare x y > 0)) := by
  rcases compareClocks_total a b with h | h | h | h
  · have hba : compareClocks b a = 1 := (compareClocks_swap_one b a).mpr h
    have d1 : deterministicWinner a b x y = "other" := by
      simp [deterministicWinner, dominanceRelation, h]
    have d2 : deterministicWinner b a y x = "this" := by
      simp [deterministicWinner, dominanceRelation, hba]
    rw [d1, d2, h]
    simp
  · have hba : compareClocks b a = 0 := (compareClocks_swap_zero a b).mp h
    rcases cmpChars_total x.data y.data with hc | hc | hc
    · have hc' : cmpChars y.data x.data = 1 := by
        rw [cmpChars_neg x.data y.data, hc]; rfl
      have d1 : deterministicWinner a b x y = "other" := by
        simp [deterministicWinner, dominanceRelation, h, localeCompare, hc]
      have d2 : deterministicWinner b a y x = "this" := by
        simp [deterministicWinner, dominanceRelation, hba, localeCompare, hc']
      rw [d1, d2, h]
      simp [localeCompare, hc]
    · exfalso
      apply hxy
      have hd := (cmpChars_eq_zero_iff _ _).mp hc
      cases x; cases y
      exact congrArg String.mk hd
    · have hc' : cmpChars y.data x.data = -1 := by
        rw [cmpChars_neg x.data y.data, hc]
      have d1 : deterministicWinner a b x y = "this" := by
        simp [deterministicWinner, dominanceRelation, h, localeCompare, hc]
      have d2 : deterministicWinner b a y x = "other" := by
        simp [deterministicWinner, dominanceRelation, hba, localeCompare, hc']
      rw [d1, d2, h]
      simp [localeCompare, hc]
  · have hba : compareClocks b a = -1 := (compareClocks_swap_one a b).mp h
    have d1 : deterministicWinner a b x y = "this" := by
      simp [deterministicWinner, dominanceRelation, h]
    have d2 : deterministicWinner b a y x = "other" := by
      simp [deterministicWinner, dominanceRelation, hba]
    rw [d1, d2, h]
    simp
  · have hba : compareClocks b a = 2 := (compareClocks_swap_two a b).mp h
    have d1 : deterministicWinner a b x y = "identical" := by
      simp [deterministicWinner, dominanceRelation, h]
    have d2 : deterministicWinner b a y x = "identical" := by
      simp [deterministicWinner, dominanceRelation, hba]
    rw [d1, d2, h]
    simp

/-- Witness for C2 at concrete inputs. -/
theorem C2_witness :
    ("p" : String) ≠ "q" ∧
    ((deterministicWinner [("a", 1)] [("b", 1)] "p" "q" = "this" ↔
      deterministicWinner [("b", 1)] [("a", 1)] "q" "p" = "other") ∧
    (deterministicWinner [("a", 1)] [("b", 1)] "p" "q" = "other" ↔
      deterministicWinner [("b", 1)] [("a", 1)] "q" "p" = "this") ∧
    (deterministicWinner [("a", 1)] [("b", 1)] "p" "q" = "identical" ↔
      deterministicWinner [("b", 1)] [("a", 1)] "q" "p" = "identical") ∧
    (compareClocks [("a", 1)] [("b", 1)] = 1 →
      deterministicWinner [("a", 1)] [("b", 1)] "p" "q" = "this") ∧
    (compareClocks [("a", 1)] [("b", 1)] = -1 →
      deterministicWinner [("a", 1)] [("b", 1)] "p" "q" = "other") ∧
    (compareClocks [("a", 1)] [("b", 1)] = 2 →
      deterministicWinner [("a", 1)] [("b", 1)] "p" "q" = "identical") ∧
    (compareClocks [("a", 1)] [("b", 1)] = 0 →
      (deterministicWinner [("a", 1)] [("b", 1)] "p" "q" = "this" ↔
        localeCompare "p" "q" > 0))) :=
  ⟨by decide,
    C2_deterministicWinner_symmetric [("a", 1)] [("b", 1)] "p" "q" (by decide)⟩

/-- C2 counterexample: with concurrent clocks and the SAME node id on both
sides, `deterministicWinner` returns `"other"` on both sides (the
`localeCompare` tiebreak returns 0, which is not `> 0`), so the two sides
pick different records: the claim's unrestricted symmetry is false. -/
theorem C2_counterexample :
    deterministicWinner [("a", 1)] [("b", 1)] "n" "n" = "other" ∧
    deterministicWinner [("b", 1)] [("a", 1)] "n" "n" = "other" ∧
    ¬ (∀ (a b : ClockMap) (x y : String),
        deterministicWinner a b x y = "this" ↔
          deterministicWinner b a y x = "other") := by
  refine ⟨by decide, by decide, fun h => ?_⟩
  have h2 : deterministicWinner [("b", 1)] [("a", 1)] "n" "n" = "other" := by
    decide
  have h3 := (h [("a", 1)] [("b", 1)] "n" "n").mpr h2
  have h1 : deterministicWinner [("a", 1)] [("b", 1)] "n" "n" = "other" := by
    decide
  rw [h1] at h3
  exact absurd h3 (by decide)
/- ## Dynamic values

The spec's §9 recursive sum type for arbitrary structured JS values:
null, boolean, number, string, list, map-string-to-value (numbers as
integers; the replication layer never computes on them). -/

inductive JsVal where
  | null
  | bool (b : Bool)
  | num (n : Int)
  | str (s : String)
  | arr (elems : List JsVal)
  | obj (fields : List (String × JsVal))

/-- The JS `value === null` test. -/
def JsVal.isNull : JsVal → Bool
  | .null => true
  | _ => false

theorem JsVal.isNull_iff (v : JsVal) : v.isNull = true ↔ v = .null := by
  cases v <;> simp [JsVal.isNull]

/- ## Records and the conflict resolver (src/sync/conflict) -/

/-- A persisted record `{value, vectorClock, origin}`.  The clock is held
sanitized (`VectorClock.fromJSON` output), so `toVectorClock` is the
identity in this model. -/
structure RecJ where
  value : JsVal
  vectorClock : ClockMap
  origin : String

/-- `ConflictResolver` configuration: the default strategy, the
`pathStrategies` map and the `customResolvers` map (user-supplied resolver
functions are modelled as total Lean functions; the JS `try/catch` around
a throwing resolver is not exercised by the claims). -/
structure ConflictCfg where
  defaultStrategy : String
  pathStrategies : List (String × String)
  customResolvers : List (String × (String → RecJ → RecJ → RecJ))

/-- `path.split("/")` (JS `String.prototype.split` with a one-character
separator). -/
def splitSlashAux : List Char → List Char → List (List Char)
  | [], acc => [acc.reverse]
  | c :: cs, acc =>
      if c = '/' then acc.reverse :: splitSlashAux cs []
      else splitSlashAux cs (c :: acc)

def splitSlash (s : String) : List String :=
  (splitSlashAux s.data []).map String.mk

/-- `parts.slice(0, i).join("/")`. -/
def joinSlash : List String → String
  | [] => ""
  | x :: rest => rest.foldl (fun acc s => acc ++ "/" ++ s) x

/-- `path.startsWith(pre)`. -/
def jsStartsWith (s pre : String) : Bool := pre.data.isPrefixOf s.data

/-- The segment-prefix scan of `StrategyManager`: try decreasing-length
segment prefixes `parts.slice(0, i).join("/")` for `i = parts.length .. 1`
and keep the first (longest) hit; a zero-length partial path never wins
(the `partialPath.length > longestMatchLength` guard with initial 0). -/
def segScan (m : List (String × String)) (parts : List String) : Nat → Option String
  | 0 => none
  | i + 1 =>
      match m.lookup (joinSlash (parts.take (i + 1))) with
      | some s =>
          if (joinSlash (parts.take (i + 1))).length > 0 then some s
          else segScan m parts i
      | none => segScan m parts i

/-- The legacy prefix scan of `StrategyManager`: iterate the strategy map
in order keeping the strictly longest `prefix` with
`path.startsWith(prefix + "/") || path === prefix`. -/
def legacyScan (m : List (String × String)) (path : String) : Option String :=
  (m.foldl
    (fun (acc : Option String × Nat) p =>
      if (jsStartsWith path (p.1 ++ "/") || path = p.1) && p.1.length > acc.2
      then (some p.2, p.1.length) else acc)
    (none, 0)).1

/-- `StrategyManager.getStrategyForPath`: exact match, then segment-prefix
match, then legacy prefix match, then the default strategy. -/
def getStrategyForPath (cfg : ConflictCfg) (path : String) : String :=
  match cfg.pathStrategies.lookup path with
  | some s => s
  | none =>
      match segScan cfg.pathStrategies (splitSlash path)
          (splitSlash path).length with
      | some s => s
      | none =>
          match legacyScan cfg.pathStrategies path with
          | some s => s
          | none => cfg.defaultStrategy

/-- The same scans over `customResolvers`
(`StrategyManager.getCustomResolverForPath`). -/
def segScanR (m : List (String × (String → RecJ → RecJ → RecJ)))
    (parts : List String) : Nat → Option (String → RecJ → RecJ → RecJ)
  | 0 => none
  | i + 1 =>
      match m.lookup (joinSlash (parts.take (i + 1))) with
      | some f =>
          if (joinSlash (parts.take (i + 1))).length > 0 then some f
          else segScanR m parts i
      | none => segScanR m parts i

def legacyScanR (m : List (String × (String → RecJ → RecJ → RecJ)))
    (path : String) : Option (String → RecJ → RecJ → RecJ) :=
  (m.foldl
    (fun (acc : Option (String → RecJ → RecJ → RecJ) × Nat) p =>
      if (jsStartsWith path (p.1 ++ "/") || path = p.1) && p.1.length > acc.2
      then (some p.2, p.1.length) else acc)
    (none, 0)).1

def getCustomResolverForPath (cfg : ConflictCfg) (path : String) :
    Option (String → RecJ → RecJ → RecJ) :=
  match cfg.customResolvers.lookup path with
  | some f => some f
  | none =>
      match segScanR cfg.customResolvers (splitSlash path)
          (splitSlash path).length with
      | some f => some f
      | none => legacyScanR cfg.customResolvers path

/-- `ResolutionStrategies.vectorDominance`. -/
def vectorDominance (localData remoteData : RecJ) : RecJ :=
  if dominanceRelation localData.vectorClock remoteData.vectorClock
      = "dominates" ∨
     dominanceRelation localData.vectorClock remoteData.vectorClock
      = "identical" then localData
  else if dominanceRelation localData.vectorClock remoteData.vectorClock
      = "dominated" then remoteData
  else
    if deterministicWinner localData.vectorClock remoteData.vectorClock
        localData.origin remoteData.origin = "this"
    then localData else remoteData

/-- `ResolutionStrategies.firstWriteWins`: prefer the dominated clock;
the concurrent tiebreak winner is reversed. -/
def firstWriteWins (localData remoteData : RecJ) : RecJ :=
  if dominanceRelation localData.vectorClock remoteData.vectorClock
      = "dominated" ∨
     dominanceRelation localData.vectorClock remoteData.vectorClock
      = "identical" then localData
  else if dominanceRelation localData.vectorClock remoteData.vectorClock
      = "dominates" then remoteData
  else
    if deterministicWinner localData.vectorClock remoteData.vectorClock
        localData.origin remoteData.origin = "this"
    then remoteData else localData

/-- `ClockOperations.merge`: pointwise maximum over the union of keys,
into a freshly built clock. -/
def mergeClocks (a b : ClockMap) : ClockMap :=
  (unionKeys a b).map fun k => (k, max (lookupC a k) (lookupC b k))

/-- Union of the field names of two JS objects
(`new Set([...Object.keys(l), ...Object.keys(r)])`). -/
def unionFields (xs ys : List (String × JsVal)) : List String :=
  (xs.map Prod.fst ++ ys.map Prod.fst).dedup

/-- `ResolutionStrategies.mergeFields`: field-wise merge of two plain
objects; non-objects (null, arrays, scalars) fall back to
`vectorDominance`. -/
def mergeFields (localData remoteData : RecJ) : RecJ :=
  match localData.value, remoteData.value with
  | .obj lo, .obj ro =>
      { value := .obj ((unionFields lo ro).map fun f =>
          (f,
            match lo.lookup f, ro.lookup f with
            | some lv, none => lv
            | none, some rv => rv
            | some lv, some rv =>
                if dominanceRelation localData.vectorClock
                    remoteData.vectorClock = "dominates" ∨
                   dominanceRelation localData.vectorClock
                    remoteData.vectorClock = "identical" then lv
                else if dominanceRelation localData.vectorClock
                    remoteData.vectorClock = "dominated" then rv
                else if localeCompare localData.origin remoteData.origin > 0
                then lv else rv
            | none, none => JsVal.null)),  -- unreachable: f is a key of one side
        vectorClock := mergeClocks localData.vectorClock remoteData.vectorClock,
        origin := localData.origin }
  | _, _ => vectorDominance localData remoteData

/-- `ResolutionStrategies.applyCustomResolver`. -/
def applyCustomResolver (cfg : ConflictCfg) (path : String)
    (localData remoteData : RecJ) : RecJ :=
  match getCustomResolverForPath cfg path with
  | none => vectorDominance localData remoteData
  | some f => f path localData remoteData

/-- `DeletionHandler.resolveWithDeletion`. -/
def resolveWithDeletion (path : String) (localData remoteData : RecJ) : RecJ :=
  if localData.value.isNull && remoteData.value.isNull then
    vectorDominance localData remoteData
  else if localData.value.isNull then
    if dominanceRelation localData.vectorClock remoteData.vectorClock
        = "dominates" ∨
       dominanceRelation localData.vectorClock remoteData.vectorClock
        = "concurrent"
    then localData else remoteData
  else
    if dominanceRelation localData.vectorClock remoteData.vectorClock
        = "dominated" ∨
       dominanceRelation localData.vectorClock remoteData.vectorClock
        = "concurrent"
    then remoteData else localData

/-- `ConflictResolver.resolve`. -/
def resolve (cfg : ConflictCfg) (path : String)
    (localData remoteData : RecJ) : RecJ :=
  if localData.value.isNull || remoteData.value.isNull then
    resolveWithDeletion path localData remoteData
  else
    if getStrategyForPath cfg path = "vector-dominance" ∨
       getStrategyForPath cfg path = "last-write-wins" then
      vectorDominance localData remoteData
    else if getStrategyForPath cfg path = "first-write-wins" then
      firstWriteWins localData remoteData
    else if getStrategyForPath cfg path = "merge-fields" then
      mergeFields localData remoteData
    else if getStrategyForPath cfg path = "custom" then
      applyCustomResolver cfg path localData remoteData
    else
      vectorDominance localData remoteData
theorem JsVal.isNull_eq_false_iff (v : JsVal) : v.isNull = false ↔ v ≠ .null := by
  cases v <;> simp [JsVal.isNull]

/-- Spec-level strict dominance of `b` over `a` ("Before") coincides with
`compare = -1`. -/
theorem before_iff (a b : ClockMap) :
    ((∀ k, lookupC a k ≤ lookupC b k) ∧ ∃ k, lookupC a k < lookupC b k) ↔
      compareClocks a b = -1 := by
  rw [compareClocks_eq_neg_one_iff]
  simp only [not_exists, not_lt]
  tauto

/-- Spec-level clock identity coincides with `compare = 2`. -/
theorem identicalSpec_iff (a b : ClockMap) :
    (∀ k, lookupC a k = lookupC b k) ↔ compareClocks a b = 2 := by
  rw [compareClocks_eq_two_iff]
  constructor
  · intro h
    constructor
    · rintro ⟨k, hk⟩; have := h k; omega
    · rintro ⟨k, hk⟩; have := h k; omega
  · rintro ⟨h1, h2⟩ k
    have e1 := not_exists.mp h1 k
    have e2 := not_exists.mp h2 k
    omega

/- ### Claim C3 -/

/-- C3 (amended): when exactly one side is a tombstone, `resolve` returns
the tombstone side unless the non-null side's vector clock strictly
dominates **or is identical to** the tombstone's clock, in which case the
non-null update wins; this holds in both directions. -/
theorem C3_resolve_tombstone (cfg : ConflictCfg) (path : String)
    (loc rem : RecJ) :
    (loc.value = .null → rem.value ≠ .null →
      (((((∀ k, lookupC loc.vectorClock k ≤ lookupC rem.vectorClock k) ∧
            ∃ k, lookupC loc.vectorClock k < lookupC rem.vectorClock k) ∨
          ∀ k, lookupC loc.vectorClock k = lookupC rem.vectorClock k) →
          resolve cfg path loc rem = rem) ∧
        (¬ ((((∀ k, lookupC loc.vectorClock k ≤ lookupC rem.vectorClock k) ∧
            ∃ k, lookupC loc.vectorClock k < lookupC rem.vectorClock k) ∨
          ∀ k, lookupC loc.vectorClock k = lookupC rem.vectorClock k)) →
          resolve cfg path loc rem = loc))) ∧
    (rem.value = .null → loc.value ≠ .null →
      (((((∀ k, lookupC rem.vectorClock k ≤ lookupC loc.vectorClock k) ∧
            ∃ k, lookupC rem.vectorClock k < lookupC loc.vectorClock k) ∨
          ∀ k, lookupC loc.vectorClock k = lookupC rem.vectorClock k) →
          resolve cfg path loc rem = loc) ∧
        (¬ ((((∀ k, lookupC rem.vectorClock k ≤ lookupC loc.vectorClock k) ∧
            ∃ k, lookupC rem.vectorClock k < lookupC loc.vectorClock k) ∨
          ∀ k, lookupC loc.vectorClock k = lookupC rem.vectorClock k)) →
          resolve cfg path loc rem = rem))) := by
  constructor
  · intro hln hrn
    have hs : loc.value.isNull = true := (JsVal.isNull_iff _).mpr hln
    have hr : rem.value.isNull = false := (JsVal.isNull_eq_false_iff _).mpr hrn
    constructor
    · rintro (⟨hle, hex⟩ | hid)
      · have hc : compareClocks loc.vectorClock rem.vectorClock = -1 :=
          (before_iff _ _).mp ⟨hle, hex⟩
        simp [resolve, resolveWithDeletion, hs, hr, dominanceRelation, hc]
      · have hc : compareClocks loc.vectorClock rem.vectorClock = 2 :=
          (identicalSpec_iff _ _).mp hid
        simp [resolve, resolveWithDeletion, hs, hr, dominanceRelation, hc]
    · intro hP
      rcases compareClocks_total loc.vectorClock rem.vectorClock with
        h | h | h | h
      · exact absurd (Or.inl ((before_iff _ _).mpr h)) hP
      · simp [resolve, resolveWithDeletion, hs, hr, dominanceRelation, h]
      · simp [resolve, resolveWithDeletion, hs, hr, dominanceRelation, h]
      · exact absurd (Or.inr ((identicalSpec_iff _ _).mpr h)) hP
  · intro hrn hln
    have hs : loc.value.isNull = false := (JsVal.isNull_eq_false_iff _).mpr hln
    have hr : rem.value.isNull = true := (JsVal.isNull_iff _).mpr hrn
    constructor
    · rintro (⟨hle, hex⟩ | hid)
      · have hc : compareClocks loc.vectorClock rem.vectorClock = 1 :=
          (compareClocks_swap_one _ _).mpr ((before_iff _ _).mp ⟨hle, hex⟩)
        simp [resolve, resolveWithDeletion, hs, hr, dominanceRelation, hc]
      · have hc : compareClocks loc.vectorClock rem.vectorClock = 2 :=
          (identicalSpec_iff _ _).mp hid
        simp [resolve, resolveWithDeletion, hs, hr, dominanceRelation, hc]
    · intro hP
      rcases compareClocks_total loc.vectorClock rem.vectorClock with
        h | h | h | h
      · simp [resolve, resolveWithDeletion, hs, hr, dominanceRelation, h]
      · simp [resolve, resolveWithDeletion, hs, hr, dominanceRelation, h]
      · exact absurd
          (Or.inl ((before_iff _ _).mpr ((compareClocks_swap_one _ _).mp h)))
          hP
      · exact absurd (Or.inr ((identicalSpec_iff _ _).mpr h)) hP

/-- Witness for C3 at concrete inputs: a dominating local tombstone beats a
remote update, and a dominated remote tombstone loses to a local update. -/
theorem C3_witness :
    resolve ⟨"vector-dominance", [], []⟩ "p"
        ⟨JsVal.null, [("a", 2)], "x"⟩ ⟨JsVal.str "v", [("a", 1)], "y"⟩ =
      ⟨JsVal.null, [("a", 2)], "x"⟩ :=
  ((C3_resolve_tombstone ⟨"vector-dominance", [], []⟩ "p"
      ⟨JsVal.null, [("a", 2)], "x"⟩ ⟨JsVal.str "v", [("a", 1)], "y"⟩).1
    rfl (fun h => nomatch h)).2
    (fun hP => hP.elim
      (fun hd => absurd (hd.1 "a") (by decide))
      (fun hi => absurd (hi "a") (by decide)))

/-- C3 counterexample: with **identical** clocks (so the non-null side does
not strictly dominate) the code hands the win to the non-null update, not
the tombstone: `relation === "identical"` falls into the update branch. -/
theorem C3_counterexample :
    resolve ⟨"vector-dominance", [], []⟩ "p"
        ⟨JsVal.null, [("a", 1)], "x"⟩ ⟨JsVal.str "v", [("a", 1)], "y"⟩ =
      ⟨JsVal.str "v", [("a", 1)], "y"⟩ ∧
    ¬ ((∀ k, lookupC [("a", 1)] k ≤ lookupC [("a", 1)] k) ∧
        ∃ k, lookupC [("a", 1)] k < lookupC [("a", 1)] k) := by
  constructor
  · rfl
  · rintro ⟨-, k, hk⟩
    omega
/- ## Version history (src/sync/manager/version-manager.js) -/

/-- `Array.prototype.sort(cmp)` modelled as a stable insertion sort: each
element is inserted after every earlier element it does not strictly
precede (`cmp x y < 0`). -/
def jsInsert {α : Type} (cmp : α → α → Int) (x : α) : List α → List α
  | [] => [x]
  | y :: ys => if cmp x y < 0 then x :: y :: ys else y :: jsInsert cmp x ys

def jsSort {α : Type} (cmp : α → α → Int) (l : List α) : List α :=
  l.foldl (fun acc x => jsInsert cmp x acc) []

/-- The version-history comparator: `dominates` first, `dominated` later,
concurrent or identical pairs by `localeCompare` of the origins. -/
def verCmp (a b : RecJ) : Int :=
  if compareClocks a.vectorClock b.vectorClock = 1 then -1
  else if compareClocks a.vectorClock b.vectorClock = -1 then 1
  else localeCompare a.origin b.origin

/-- The `versionHistory` map. -/
abbrev VHMap := List (String × List RecJ)

def vhLookup (vh : VHMap) (path : String) : List RecJ :=
  (vh.lookup path).getD []

/-- `Map.prototype.set`: replace in place or append. -/
def vhSet (vh : VHMap) (path : String) (h : List RecJ) : VHMap :=
  if (vh.lookup path).isSome then
    vh.map fun p => if p.1 = path then (path, h) else p
  else vh ++ [(path, h)]

/-- `VersionManager.addToVersionHistory`: no-op during shutdown; push the
record, sort by the dominance comparator, truncate to `maxVersions` when
the bound is exceeded. -/
def addToVersionHistory (shuttingDown : Bool) (maxVersions : Nat)
    (vh : VHMap) (path : String) (data : RecJ) : VHMap :=
  if shuttingDown then vh
  else
    if (jsSort verCmp (vhLookup vh path ++ [data])).length > maxVersions then
      vhSet vh path ((jsSort verCmp (vhLookup vh path ++ [data])).take
        maxVersions)
    else vhSet vh path (jsSort verCmp (vhLookup vh path ++ [data]))

theorem vhLookup_vhSet (vh : VHMap) (path : String) (h : List RecJ) :
    vhLookup (vhSet vh path h) path = h := by
  rw [vhSet]
  split
  · rename_i hsome
    induction vh with
    | nil => simp at hsome
    | cons p ps ih =>
        obtain ⟨k, v⟩ := p
        by_cases hk : k = path
        · subst hk
          have hhead : (if ((k, v) : String × List RecJ).1 = k then (k, h)
              else (k, v)) = (k, h) := if_pos rfl
          rw [List.map_cons, hhead]
          simp [vhLookup, List.lookup]
        · have hb : (path == k) = false := by
            simp only [beq_eq_false_iff_ne]
            exact fun e => hk e.symm
          simp only [List.lookup, hb] at hsome
          have := ih hsome
          simp only [List.map_cons]
          rw [show (if (k, v).1 = path then (path, h) else (k, v)) = (k, v)
              from if_neg hk]
          simpa [vhLookup, List.lookup, hb] using this
  · induction vh with
    | nil => simp [vhLookup, List.lookup]
    | cons p ps ih =>
        rename_i hnone
        obtain ⟨k, v⟩ := p
        by_cases hk : path = k
        · exfalso
          simp [List.lookup, hk] at hnone
        · have hb : (path == k) = false := by
            simp only [beq_eq_false_iff_ne]; exact hk
          simp only [List.lookup, hb] at hnone
          simpa [vhLookup, List.lookup, hb] using ih hnone

theorem jsInsert_length {α : Type} (cmp : α → α → Int) (x : α) :
    ∀ l : List α, (jsInsert cmp x l).length = l.length + 1 := by
  intro l
  induction l with
  | nil => rfl
  | cons y ys ih =>
      rw [jsInsert]
      split
      · simp
      · simp [ih]

theorem jsSort_length {α : Type} (cmp : α → α → Int) (l : List α) :
    (jsSort cmp l).length = l.length := by
  rw [jsSort]
  suffices h : ∀ acc : List α,
      (l.foldl (fun acc x => jsInsert cmp x acc) acc).length
        = l.length + acc.length by
    simpa using h []
  induction l with
  | nil => intro acc; simp
  | cons y ys ih =>
      intro acc
      simp only [List.foldl_cons]
      rw [ih (jsInsert cmp y acc), jsInsert_length]
      simp only [List.length_cons]
      omega

theorem jsInsert_head {α : Type} (cmp : α → α → Int) (x : α) (l : List α) :
    (jsInsert cmp x l).head? = some x ∨ (jsInsert cmp x l).head? = l.head? := by
  cases l with
  | nil => left; rfl
  | cons y ys =>
      rw [jsInsert]
      split
      · left; rfl
      · right; rfl

theorem jsInsert_chain {α : Type} (cmp : α → α → Int)
    (hA : ∀ a b : α, 0 ≤ cmp a b → cmp b a ≤ 0) (x : α) :
    ∀ l : List α, l.Chain' (fun a b => cmp a b ≤ 0) →
      (jsInsert cmp x l).Chain' (fun a b => cmp a b ≤ 0) := by
  intro l
  induction l with
  | nil => intro _; simp [jsInsert]
  | cons y ys ih =>
      intro hch
      rw [jsInsert]
      split
      · rename_i hxy
        exact List.chain'_cons.mpr ⟨le_of_lt hxy, hch⟩
      · rename_i hxy
        have hyx : cmp y x ≤ 0 := hA x y (by omega)
        have htail := ih (List.chain'_cons'.mp hch).2
        refine List.chain'_cons'.mpr ⟨?_, htail⟩
        intro b hb
        rcases jsInsert_head cmp x ys with hh | hh
        · rw [hh] at hb
          simp only [Option.mem_def, Option.some.injEq] at hb
          subst hb
          exact hyx
        · rw [hh] at hb
          exact (List.chain'_cons'.mp hch).1 b hb

theorem jsSort_chain {α : Type} (cmp : α → α → Int)
    (hA : ∀ a b : α, 0 ≤ cmp a b → cmp b a ≤ 0) (l : List α) :
    (jsSort cmp l).Chain' (fun a b => cmp a b ≤ 0) := by
  rw [jsSort]
  suffices h : ∀ acc : List α, acc.Chain' (fun a b => cmp a b ≤ 0) →
      (l.foldl (fun acc x => jsInsert cmp x acc) acc).Chain'
        (fun a b => cmp a b ≤ 0) by
    exact h [] (by simp)
  induction l with
  | nil => intro acc hacc; simpa using hacc
  | cons y ys ih =>
      intro acc hacc
      simp only [List.foldl_cons]
      exact ih (jsInsert cmp y acc) (jsInsert_chain cmp hA y acc hacc)

/-- The version comparator is asymmetric (`0 ≤ cmp a b → cmp b a ≤ 0`),
which is what adjacent sortedness of the JS sort output rests on. -/
theorem verCmp_asym (a b : RecJ) : 0 ≤ verCmp a b → verCmp b a ≤ 0 := by
  intro h
  rcases compareClocks_total a.vectorClock b.vectorClock with hc | hc | hc | hc
  · -- a dominated: verCmp a b = 1; b dominates a
    have hba : compareClocks b.vectorClock a.vectorClock = 1 :=
      (compareClocks_swap_one _ _).mpr hc
    simp [verCmp, hba]
  · have hba : compareClocks b.vectorClock a.vectorClock = 0 :=
      (compareClocks_swap_zero _ _).mp hc
    rw [verCmp, if_neg (by simp [hba]), if_neg (by simp [hba])]
    rw [verCmp, if_neg (by simp [hc]), if_neg (by simp [hc])] at h
    rw [localeCompare, cmpChars_neg]
    rw [localeCompare] at h
    omega
  · -- a dominates: verCmp a b = -1 < 0, contradiction with 0 ≤
    rw [verCmp, if_pos hc] at h
    omega
  · have hba : compareClocks b.vectorClock a.vectorClock = 2 :=
      (compareClocks_swap_two _ _).mp hc
    rw [verCmp, if_neg (by simp [hba]), if_neg (by simp [hba])]
    rw [verCmp, if_neg (by simp [hc]), if_neg (by simp [hc])] at h
    rw [localeCompare, cmpChars_neg]
    rw [localeCompare] at h
    omega

theorem chain'_take {α : Type} {R : α → α → Prop} :
    ∀ (l : List α) (n : Nat), l.Chain' R → (l.take n).Chain' R := by
  intro l
  induction l with
  | nil => intro n _; simp
  | cons x xs ih =>
      intro n hch
      cases n with
      | zero => simp
      | succ m =>
          rw [List.take_succ_cons]
          refine List.chain'_cons'.mpr ⟨?_, ih m (List.chain'_cons'.mp hch).2⟩
          intro b hb
          have hbx : b ∈ xs.head? := by
            cases xs with
            | nil => simp at hb
            | cons z zs =>
                cases m with
                | zero => simp at hb
                | succ m2 => simpa using hb
          exact (List.chain'_cons'.mp hch).1 b hbx
/- ## Subscriptions (src/sync/manager/subscription-manager, part_017) -/

/-- `SubscriptionManager._isPathMatch`: exact match, or one path is a
segment-wise ancestor of the other. -/
def isPathMatch (path subscribedPath : String) : Bool :=
  if path = subscribedPath then true
  else if (splitSlash path).length > (splitSlash subscribedPath).length then
    ((splitSlash subscribedPath).zip (splitSlash path)).all fun q => q.1 = q.2
  else if (splitSlash subscribedPath).length > (splitSlash path).length then
    ((splitSlash path).zip (splitSlash subscribedPath)).all fun q => q.1 = q.2
  else false

/- ## Node state and the write pipeline
(src/sync/manager/message-processor.js, src/core/server.js) -/

/-- Replace-or-append update of an association list (JS object / `Map`
assignment). -/
def setAssoc {β : Type} (m : List (String × β)) (k : String) (v : β) :
    List (String × β) :=
  if (m.lookup k).isSome then m.map fun p => if p.1 = k then (k, v) else p
  else m ++ [(k, v)]

/-- `ClockOperations.increment`: invalid (empty) node id leaves the clock
unchanged. -/
def incrementClock (m : ClockMap) (nodeId : String) : ClockMap :=
  if nodeId = "" then m else setAssoc m nodeId (lookupC m nodeId + 1)

/-- `VectorClock.fromJSON` / constructor sanitization: keep non-negative
numbers, coerce other defined values to 0. -/
def sanitizeClock (raw : List (String × JsVal)) : ClockMap :=
  raw.map fun p =>
    (p.1, match p.2 with
      | .num n => if 0 ≤ n then n.toNat else 0
      | _ => 0)

/-- Serialize a clock back into a wire value (`toJSON`). -/
def embedClock (m : ClockMap) : List (String × JsVal) :=
  m.map fun p => (p.1, JsVal.num (p.2 : Int))

/-- Modelled from the spec: the external durable store collaborator behind
`DatabaseManager` (not part of the replication core's sources): `get(path)`
on an absent key is not an error and yields nothing; `put(path, record)`
persists, or fails with a `StoreError` — injected here by the `failPut`
flag. -/
structure Store where
  entries : List (String × RecJ)
  failPut : Bool

def storeGet (s : Store) (path : String) : Option RecJ :=
  s.entries.lookup path

def storePut (s : Store) (path : String) (r : RecJ) : Except Unit Store :=
  if s.failPut then .error ()
  else .ok { s with entries := setAssoc s.entries path r }

/-- A `put` wire message (§6): `""` models an absent / falsy `msgId` or
`origin`. -/
structure Msg where
  path : String
  value : JsVal
  msgId : String
  origin : String
  vectorClock : Option (List (String × JsVal))
  visitedServers : Option (List String)
  antiEntropy : Bool

/-- The replication-relevant mutable state of one node (server +
SyncManager + MessageProcessor + VersionManager + SubscriptionManager).
Subscriptions are modelled as one callback per subscribed path. -/
structure NodeState where
  serverID : String
  isShuttingDown : Bool
  processedMessages : List String
  messageTimestamps : List (String × Nat)
  knownNodeIds : List String
  vectorClock : ClockMap
  store : Store
  versionHistory : VHMap
  subscriptions : List String
  maxVersions : Nat
  conflict : ConflictCfg

/-- `Set.prototype.add`. -/
def addKnown (l : List String) (x : String) : List String :=
  if x ∈ l then l else l ++ [x]

/-- The result of `MessageProcessor.handlePut`: the returned record (null
on any drop or error), the post state, the subscriber callback invocations
(`notifySubscribers`), and the broadcast `put` events
(`_propagateChanges`). -/
structure HPResult where
  result : Option RecJ
  state : NodeState
  notify : List (String × JsVal)
  casts : List Msg

/-- `SubscriptionManager.notifySubscribers` as its observable callback
invocations. -/
def notifyOutputs (st : NodeState) (path : String) (value : JsVal) :
    List (String × JsVal) :=
  if st.isShuttingDown then []
  else (st.subscriptions.filter fun sp => isPathMatch path sp).map
    fun sp => (sp, value)

/-- `MessageProcessor.handlePut` (with `_resolveConflicts` and
`_propagateChanges` inlined in source order): shutdown / duplicate-msgId /
visited-server drops; record the msgId; resolve against the existing
record; merge and advance the local clock; persist; notify; propagate.
`now` stands for `Date.now()`; a store failure is caught (logged) and
yields a null result. -/
def handlePut (m : Msg) (now : Nat) (st : NodeState) : HPResult :=
  if st.isShuttingDown then ⟨none, st, [], []⟩
  else if m.msgId ≠ "" ∧ m.msgId ∈ st.processedMessages then ⟨none, st, [], []⟩
  else if (match m.visitedServers with
           | some vs => vs.contains st.serverID
           | none => false) then ⟨none, st, [], []⟩
  else
    let st1 := if m.msgId ≠ "" then
        { st with processedMessages := st.processedMessages ++ [m.msgId],
                  messageTimestamps := setAssoc st.messageTimestamps m.msgId now }
      else st
    let existingData := storeGet st1.store m.path
    let st2 := if m.origin ≠ "" then
        { st1 with knownNodeIds := addKnown st1.knownNodeIds m.origin }
      else st1
    let incoming : ClockMap :=
      match m.vectorClock with
      | some raw => sanitizeClock raw
      | none => [(if m.origin ≠ "" then m.origin else st.serverID, 1)]
    let newData : RecJ :=
      ⟨m.value, incoming, if m.origin ≠ "" then m.origin else st.serverID⟩
    let st3 := match existingData with
      | some ex =>
          { st2 with
              versionHistory :=
                addToVersionHistory st2.isShuttingDown st2.maxVersions
                  st2.versionHistory m.path ex }
      | none => st2
    let finalData0 := match existingData with
      | some ex => resolve st.conflict m.path ex newData
      | none => newData
    let clock1 := mergeClocks st3.vectorClock incoming
    let clock2 := if newData.origin = st.serverID
      then incrementClock clock1 st.serverID else clock1
    let clock3 := st3.knownNodeIds.foldl
      (fun c nid => if (c.lookup nid).isSome then c else c ++ [(nid, 0)])
      clock2
    let st4 := { st3 with vectorClock := clock3 }
    let finalData := { finalData0 with vectorClock := clock3 }
    match storePut st4.store m.path finalData with
    | .error _ => ⟨none, st4, [], []⟩
    | .ok store2 =>
        let st5 := { st4 with store := store2 }
        if ¬ st5.isShuttingDown ∧ ¬ m.antiEntropy then
          ⟨some finalData, st5, notifyOutputs st5 m.path finalData.value,
            [{ m with
                vectorClock := some (embedClock clock3),
                visitedServers := some
                  (if st.serverID ∈ (m.visitedServers.getD []) then
                    m.visitedServers.getD []
                  else m.visitedServers.getD [] ++ [st.serverID]) }]⟩
        else ⟨some finalData, st5, notifyOutputs st5 m.path finalData.value, []⟩

/-- Errors surfaced by the public API (`storeError` stands for an
underlying store failure propagating unchanged to the caller — what §7
prescribes for write failures). -/
inductive ApiErr where
  | shuttingDown
  | typeError
  | storeError
  deriving DecidableEq

/-- The value returned by a successful `P2PServer.put`. -/
structure PutOk where
  path : String
  value : JsVal
  vectorClock : ClockMap

/-- `P2PServer.put`: refuse during shutdown; build the message with a fresh
msgId and the incremented clock; run `handlePut`; reading `.value` of the
null result of a failed `handlePut` raises a TypeError. -/
def serverPut (path : String) (value : JsVal) (freshId : String) (now : Nat)
    (st : NodeState) :
    Except ApiErr PutOk × NodeState × List (String × JsVal) × List Msg :=
  if st.isShuttingDown then (.error .shuttingDown, st, [], [])
  else
    match handlePut
      ⟨path, value, freshId, st.serverID,
        some (embedClock (incrementClock st.vectorClock st.serverID)),
        none, false⟩ now st with
    | ⟨none, st', notes, casts⟩ => (.error .typeError, st', notes, casts)
    | ⟨some r, st', notes, casts⟩ =>
        (.ok ⟨path, r.value, r.vectorClock⟩, st', notes, casts)

/-- `P2PServer.get`: the stored record's `value`, else `null`. -/
def serverGet (path : String) (st : NodeState) : JsVal :=
  match storeGet st.store path with
  | some r => r.value
  | none => JsVal.null

/-- `P2PServer.del`: the whole body runs in a `try` whose `catch` returns
`false` — including the shutdown throw; a missing or already-null record
returns `false`; otherwise a soft delete via `put(path, null)`. -/
def serverDel (path : String) (freshId : String) (now : Nat)
    (st : NodeState) :
    Except ApiErr Bool × NodeState × List (String × JsVal) × List Msg :=
  if st.isShuttingDown then (.ok false, st, [], [])
  else if (serverGet path st).isNull then (.ok false, st, [], [])
  else
    match serverPut path JsVal.null freshId now st with
    | (.error _, st', notes, casts) => (.ok false, st', notes, casts)
    | (.ok _, st', notes, casts) => (.ok true, st', notes, casts)
/-- After a non-dropped `handlePut` the node is still not shutting down and
the message's id has been recorded in the processed set. -/
theorem handlePut_post_fields (m : Msg) (now : Nat) (st : NodeState)
    (h1 : st.isShuttingDown = false)
    (h2 : ¬ (m.msgId ≠ "" ∧ m.msgId ∈ st.processedMessages))
    (h3 : (match m.visitedServers with
            | some vs => vs.contains st.serverID
            | none => false) = false)
    (hmsg : m.msgId ≠ "") :
    (handlePut m now st).state.isShuttingDown = false ∧
    m.msgId ∈ (handlePut m now st).state.processedMessages := by
  rw [handlePut, if_neg (by simp [h1]), if_neg h2, if_neg (by rw [h3]; simp)]
  simp only [if_pos hmsg]
  split <;> split <;> split <;> constructor <;>
    by_cases ho : m.origin = "" <;> simp [h1, ho] <;> split <;> simp

/- ### Claim C4 -/

/-- C4: `handlePut` is idempotent on `msgId`: a message whose (truthy)
`msgId` is already in the processed-message set is dropped with the whole
node state unchanged, no subscriber notified and nothing broadcast; and
running the same message a second time right after the first leaves the
state exactly as after the first run. -/
theorem C4_handlePut_idempotent (m : Msg) (now now2 : Nat) (st : NodeState)
    (hmsg : m.msgId ≠ "") :
    (m.msgId ∈ st.processedMessages →
      handlePut m now st = ⟨none, st, [], []⟩) ∧
    handlePut m now2 (handlePut m now st).state =
      ⟨none, (handlePut m now st).state, [], []⟩ := by
  constructor
  · intro hmem
    by_cases h1 : st.isShuttingDown = true
    · rw [handlePut, if_pos h1]
    · rw [handlePut, if_neg h1, if_pos ⟨hmsg, hmem⟩]
  · by_cases h1 : st.isShuttingDown = true
    · have e : handlePut m now st = ⟨none, st, [], []⟩ := by
        rw [handlePut, if_pos h1]
      rw [e]
      show handlePut m now2 st = ⟨none, st, [], []⟩
      rw [handlePut, if_pos h1]
    · by_cases h2 : m.msgId ∈ st.processedMessages
      · have e : handlePut m now st = ⟨none, st, [], []⟩ := by
          rw [handlePut, if_neg h1, if_pos ⟨hmsg, h2⟩]
        rw [e]
        show handlePut m now2 st = ⟨none, st, [], []⟩
        rw [handlePut, if_neg h1, if_pos ⟨hmsg, h2⟩]
      · by_cases h3 : (match m.visitedServers with
            | some vs => vs.contains st.serverID
            | none => false) = true
        · have e : handlePut m now st = ⟨none, st, [], []⟩ := by
            rw [handlePut, if_neg h1, if_neg (fun hc => h2 hc.2), if_pos h3]
          rw [e]
          show handlePut m now2 st = ⟨none, st, [], []⟩
          rw [handlePut, if_neg h1, if_neg (fun hc => h2 hc.2), if_pos h3]
        · have h1f : st.isShuttingDown = false := by simpa using h1
          have h3f : (match m.visitedServers with
              | some vs => vs.contains st.serverID
              | none => false) = false := by simpa using h3
          have hpost := handlePut_post_fields m now st h1f
            (fun hc => h2 hc.2) h3f hmsg
          rw [handlePut, if_neg (by simp [hpost.1]), if_pos ⟨hmsg, hpost.2⟩]

/-- Witness for C4 at a concrete message and node state. -/
theorem C4_witness :
    (("id1" : String) ∈
        (⟨"s1", false, [], [], ["s1"], [("s1", 1)], ⟨[], false⟩, [], [], 10,
          ⟨"vector-dominance", [], []⟩⟩ : NodeState).processedMessages →
      handlePut ⟨"k", JsVal.num 1, "id1", "s1", none, none, false⟩ 0
          ⟨"s1", false, [], [], ["s1"], [("s1", 1)], ⟨[], false⟩, [], [], 10,
            ⟨"vector-dominance", [], []⟩⟩ =
        ⟨none,
          ⟨"s1", false, [], [], ["s1"], [("s1", 1)], ⟨[], false⟩, [], [], 10,
            ⟨"vector-dominance", [], []⟩⟩, [], []⟩) ∧
    handlePut ⟨"k", JsVal.num 1, "id1", "s1", none, none, false⟩ 1
        (handlePut ⟨"k", JsVal.num 1, "id1", "s1", none, none, false⟩ 0
          ⟨"s1", false, [], [], ["s1"], [("s1", 1)], ⟨[], false⟩, [], [], 10,
            ⟨"vector-dominance", [], []⟩⟩).state =
      ⟨none,
        (handlePut ⟨"k", JsVal.num 1, "id1", "s1", none, none, false⟩ 0
          ⟨"s1", false, [], [], ["s1"], [("s1", 1)], ⟨[], false⟩, [], [], 10,
            ⟨"vector-dominance", [], []⟩⟩).state, [], []⟩ :=
  C4_handlePut_idempotent ⟨"k", JsVal.num 1, "id1", "s1", none, none, false⟩
    0 1
    ⟨"s1", false, [], [], ["s1"], [("s1", 1)], ⟨[], false⟩, [], [], 10,
      ⟨"vector-dominance", [], []⟩⟩
    (by decide)
/- ### Claim C7 -/

/-- C7 (amended): during shutdown `put` raises `ShuttingDown` to the API
caller; `del` also hits its shutdown throw, but its own catch-all converts
the error into a normal `false` return, so `del` does not surface the
error. -/
theorem C7_shutdown_writes (path : String) (value : JsVal) (freshId : String)
    (now : Nat) (st : NodeState) (h : st.isShuttingDown = true) :
    serverPut path value freshId now st = (.error .shuttingDown, st, [], []) ∧
    serverDel path freshId now st = (.ok false, st, [], []) := by
  constructor
  · rw [serverPut, if_pos h]
  · rw [serverDel, if_pos h]

/-- Witness for C7 at a concrete shutting-down node. -/
theorem C7_witness :
    serverPut "p" (JsVal.num 1) "id" 0
        ⟨"s1", true, [], [], ["s1"], [("s1", 1)], ⟨[], false⟩, [], [], 10,
          ⟨"vector-dominance", [], []⟩⟩ =
      (.error .shuttingDown,
        ⟨"s1", true, [], [], ["s1"], [("s1", 1)], ⟨[], false⟩, [], [], 10,
          ⟨"vector-dominance", [], []⟩⟩, [], []) ∧
    serverDel "p" "id" 0
        ⟨"s1", true, [], [], ["s1"], [("s1", 1)], ⟨[], false⟩, [], [], 10,
          ⟨"vector-dominance", [], []⟩⟩ =
      (.ok false,
        ⟨"s1", true, [], [], ["s1"], [("s1", 1)], ⟨[], false⟩, [], [], 10,
          ⟨"vector-dominance", [], []⟩⟩, [], []) :=
  C7_shutdown_writes "p" (JsVal.num 1) "id" 0
    ⟨"s1", true, [], [], ["s1"], [("s1", 1)], ⟨[], false⟩, [], [], 10,
      ⟨"vector-dominance", [], []⟩⟩ rfl

/-- C7 counterexample: `del` called on a shutting-down node returns the
normal result `false` instead of surfacing the `ShuttingDown` error. -/
theorem C7_counterexample :
    (serverDel "p" "id" 0
        ⟨"s1", true, [], [], ["s1"], [("s1", 1)], ⟨[], false⟩, [], [], 10,
          ⟨"vector-dominance", [], []⟩⟩).1 = .ok false ∧
    ∀ e : ApiErr,
      (serverDel "p" "id" 0
          ⟨"s1", true, [], [], ["s1"], [("s1", 1)], ⟨[], false⟩, [], [], 10,
            ⟨"vector-dominance", [], []⟩⟩).1 ≠ .error e := by
  constructor
  · rfl
  · intro e h
    exact absurd h (by rw [serverDel, if_pos rfl]; simp)

/- ### Claim C8 -/

/-- C8 (amended): a store failure during the persist step is caught inside
`handlePut` on every path: `handlePut` returns null with nothing persisted,
no subscriber notified and nothing broadcast (so sync/anti-entropy callers
just continue); the local API `put` then fails with the TypeError from
reading `.value` of the null result — not with the original store error. -/
theorem C8_store_failure (path : String) (value : JsVal) (freshId : String)
    (now : Nat) (st : NodeState)
    (h1 : st.isShuttingDown = false) (h2 : st.store.failPut = true) :
    (serverPut path value freshId now st).1 = .error .typeError ∧
    ∀ m : Msg, (handlePut m now st).result = none ∧
      (handlePut m now st).state.store = st.store ∧
      (handlePut m now st).notify = [] ∧ (handlePut m now st).casts = [] := by
  have key : ∀ m : Msg, (handlePut m now st).result = none ∧
      (handlePut m now st).state.store = st.store ∧
      (handlePut m now st).notify = [] ∧ (handlePut m now st).casts = [] := by
    intro m
    by_cases g2 : (m.msgId ≠ "" ∧ m.msgId ∈ st.processedMessages)
    · rw [handlePut, if_neg (by simp [h1]), if_pos g2]
      exact ⟨rfl, rfl, rfl, rfl⟩
    · by_cases g3 : (match m.visitedServers with
          | some vs => vs.contains st.serverID
          | none => false) = true
      · rw [handlePut, if_neg (by simp [h1]), if_neg g2, if_pos g3]
        exact ⟨rfl, rfl, rfl, rfl⟩
      · have g3f : (match m.visitedServers with
            | some vs => vs.contains st.serverID
            | none => false) = false := by simpa using g3
        rw [handlePut, if_neg (by simp [h1]), if_neg g2,
          if_neg (by rw [g3f]; simp)]
        by_cases hmsg : m.msgId = "" <;> by_cases ho : m.origin = "" <;>
          simp only [hmsg, ho, ne_eq, not_false_eq_true, not_true_eq_false,
            ite_true, ite_false, reduceIte] <;>
          cases hex : storeGet st.store m.path <;>
            simp [hex, storePut, h2, h1]
  refine ⟨?_, key⟩
  rcases hE : handlePut
      ⟨path, value, freshId, st.serverID,
        some (embedClock (incrementClock st.vectorClock st.serverID)),
        none, false⟩ now st with ⟨res, st2, notes, casts⟩
  have hk := (key ⟨path, value, freshId, st.serverID,
    some (embedClock (incrementClock st.vectorClock st.serverID)),
    none, false⟩).1
  rw [hE] at hk
  rw [serverPut, if_neg (by simp [h1]), hE]
  cases hk
  rfl

/-- Witness for C8 at a concrete node state with an injected store
failure. -/
theorem C8_witness :
    (serverPut "p" (JsVal.num 1) "id" 0
        ⟨"s1", false, [], [], ["s1"], [("s1", 1)], ⟨[], true⟩, [], [], 10,
          ⟨"vector-dominance", [], []⟩⟩).1 = .error .typeError ∧
    ∀ m : Msg,
      (handlePut m 0
          ⟨"s1", false, [], [], ["s1"], [("s1", 1)], ⟨[], true⟩, [], [], 10,
            ⟨"vector-dominance", [], []⟩⟩).result = none ∧
      (handlePut m 0
          ⟨"s1", false, [], [], ["s1"], [("s1", 1)], ⟨[], true⟩, [], [], 10,
            ⟨"vector-dominance", [], []⟩⟩).state.store =
        (⟨"s1", false, [], [], ["s1"], [("s1", 1)], ⟨[], true⟩, [], [], 10,
          ⟨"vector-dominance", [], []⟩⟩ : NodeState).store ∧
      (handlePut m 0
          ⟨"s1", false, [], [], ["s1"], [("s1", 1)], ⟨[], true⟩, [], [], 10,
            ⟨"vector-dominance", [], []⟩⟩).notify = [] ∧
      (handlePut m 0
          ⟨"s1", false, [], [], ["s1"], [("s1", 1)], ⟨[], true⟩, [], [], 10,
            ⟨"vector-dominance", [], []⟩⟩).casts = [] :=
  C8_store_failure "p" (JsVal.num 1) "id" 0
    ⟨"s1", false, [], [], ["s1"], [("s1", 1)], ⟨[], true⟩, [], [], 10,
      ⟨"vector-dominance", [], []⟩⟩ rfl rfl

/-- C8 counterexample: with a failing store, the API `put` raises the
TypeError from the null `handlePut` result, not the store error itself. -/
theorem C8_counterexample :
    (serverPut "p" (JsVal.num 1) "id" 0
        ⟨"s1", false, [], [], ["s1"], [("s1", 1)], ⟨[], true⟩, [], [], 10,
          ⟨"vector-dominance", [], []⟩⟩).1 = .error .typeError ∧
    (serverPut "p" (JsVal.num 1) "id" 0
        ⟨"s1", false, [], [], ["s1"], [("s1", 1)], ⟨[], true⟩, [], [], 10,
          ⟨"vector-dominance", [], []⟩⟩).1 ≠ .error .storeError := by
  constructor
  · rfl
  · intro h
    rw [show (serverPut "p" (JsVal.num 1) "id" 0
        ⟨"s1", false, [], [], ["s1"], [("s1", 1)], ⟨[], true⟩, [], [], 10,
          ⟨"vector-dominance", [], []⟩⟩).1 = .error .typeError from rfl] at h
    exact absurd h (by simp)
/- ### Claim C6 -/

/-- C6 (amended): after every `addToVersionHistory` call (outside
shutdown) the per-path history holds at most `maxVersions` entries, with
the overflow dropped from the tail, and **consecutive** entries respect the
dominance comparator (a dominating entry precedes, concurrent/identical
pairs in lexicographic origin order); with `maxVersions = 5`, six
sequential local writes at one path leave exactly 5 history entries.  (The
claim's ordering over arbitrary pairs is false: the comparator is not
transitive, see the counterexample.) -/
theorem C6_version_history :
    (∀ (vh : VHMap) (path : String) (data : RecJ) (maxV : Nat),
      (vhLookup (addToVersionHistory false maxV vh path data) path).length
          ≤ maxV ∧
      (vhLookup (addToVersionHistory false maxV vh path data) path).Chain'
          (fun a b => verCmp a b ≤ 0)) ∧
    (vhLookup
      (([(JsVal.num 1, "i1"), (JsVal.num 2, "i2"), (JsVal.num 3, "i3"),
        (JsVal.num 4, "i4"), (JsVal.num 5, "i5"),
        (JsVal.num 6, "i6")]).foldl
        (fun s p => (serverPut "k" p.1 p.2 0 s).2.1)
        ⟨"s1", false, [], [], ["s1"], [("s1", 1)], ⟨[], false⟩, [], [], 5,
          ⟨"vector-dominance", [], []⟩⟩).versionHistory "k").length = 5 := by
  constructor
  · intro vh path data maxV
    rw [addToVersionHistory]
    simp only [Bool.false_eq_true, if_false]
    split
    · rename_i hgt
      rw [vhLookup_vhSet]
      constructor
      · rw [List.length_take]
        omega
      · exact chain'_take _ maxV (jsSort_chain verCmp verCmp_asym _)
    · rename_i hgt
      rw [vhLookup_vhSet]
      constructor
      · omega
      · exact jsSort_chain verCmp verCmp_asym _
  · rfl

/-- C6 counterexample: three records whose pairwise comparator constraints
are cyclic (`a` dominates `b`; `c` before `a` and `b` before `c` by the
origin tiebreak on concurrent pairs).  The stored history is `[c, a, b]`,
in which the concurrent pair `(c, b)` violates the claimed lexicographic
origin order (`"m" > "a"` yet `c` precedes `b`); no order of these three
records satisfies the claimed ordering for all pairs. -/
theorem C6_counterexample :
    vhLookup
        (addToVersionHistory false 10
          (addToVersionHistory false 10
            (addToVersionHistory false 10 [] "k"
              ⟨JsVal.num 1, [("n1", 2)], "z"⟩)
            "k" ⟨JsVal.num 2, [("n1", 1)], "a"⟩)
          "k" ⟨JsVal.num 3, [("n2", 5)], "m"⟩) "k" =
      [⟨JsVal.num 3, [("n2", 5)], "m"⟩, ⟨JsVal.num 1, [("n1", 2)], "z"⟩,
        ⟨JsVal.num 2, [("n1", 1)], "a"⟩] ∧
    compareClocks [("n2", 5)] [("n1", 1)] = 0 ∧
    localeCompare "m" "a" > 0 := by
  refine ⟨rfl, by decide, by decide⟩
/- ## Anti-entropy backoff (src/sync/anti-entropy/execution-manager.js) -/

/-- The constructor's initial backoff: 1 s. -/
def initialBackoff : ℚ := 1000

/-- `ExecutionManager.markCompleted` restricted to the `backoffTime` field:
on success, halve it (floored at 1 s) if the run came after a long idle
period (`timeSinceLastRun > backoffTime * 5`), then multiply by 0.8 floored
at 1 s; on failure double it, capped at 30 s.  JS numbers are modelled as
exact rationals. -/
def markCompletedBackoff (success : Bool) (timeSinceLastRun : ℚ) (b : ℚ) :
    ℚ :=
  if success then
    max 1000
      ((if timeSinceLastRun > b * 5 then max 1000 (b / 2) else b) * (8 / 10))
  else min 30000 (b * 2)

/- ### Claim C9 -/

/-- C9: the anti-entropy backoff always stays within [1 s, 30 s]: it starts
at 1 s; one completion step (success: ×0.8 after an optional idle halving,
floored at 1 s; failure: ×2 capped at 30 s) maps the interval into itself;
and therefore any sequence of completions keeps it in the interval. -/
theorem C9_backoff_bounds :
    (1000 ≤ initialBackoff ∧ initialBackoff ≤ 30000) ∧
    (∀ (success : Bool) (t b : ℚ), 1000 ≤ b → b ≤ 30000 →
      1000 ≤ markCompletedBackoff success t b ∧
        markCompletedBackoff success t b ≤ 30000) ∧
    (∀ steps : List (Bool × ℚ),
      1000 ≤ steps.foldl (fun b s => markCompletedBackoff s.1 s.2 b)
          initialBackoff ∧
      steps.foldl (fun b s => markCompletedBackoff s.1 s.2 b)
          initialBackoff ≤ 30000) := by
  have step : ∀ (success : Bool) (t b : ℚ), 1000 ≤ b → b ≤ 30000 →
      1000 ≤ markCompletedBackoff success t b ∧
        markCompletedBackoff success t b ≤ 30000 := by
    intro success t b hl hr
    cases success
    · rw [markCompletedBackoff, if_neg (by simp)]
      exact ⟨le_min (by norm_num) (by linarith), min_le_left _ _⟩
    · rw [markCompletedBackoff, if_pos rfl]
      by_cases hidle : t > b * 5
      · rw [if_pos hidle]
        refine ⟨le_max_left _ _, max_le (by norm_num) ?_⟩
        have h1 : max 1000 (b / 2) ≤ 15000 :=
          max_le (by norm_num) (by linarith)
        linarith
      · rw [if_neg hidle]
        exact ⟨le_max_left _ _, max_le (by norm_num) (by linarith)⟩
  refine ⟨⟨by norm_num [initialBackoff], by norm_num [initialBackoff]⟩,
    step, ?_⟩
  intro steps
  suffices h : ∀ (l : List (Bool × ℚ)) (b : ℚ), 1000 ≤ b → b ≤ 30000 →
      1000 ≤ l.foldl (fun b s => markCompletedBackoff s.1 s.2 b) b ∧
        l.foldl (fun b s => markCompletedBackoff s.1 s.2 b) b ≤ 30000 by
    exact h steps initialBackoff (by norm_num [initialBackoff])
      (by norm_num [initialBackoff])
  intro l
  induction l with
  | nil => intro b hl hr; exact ⟨hl, hr⟩
  | cons s rest ih =>
      intro b hl hr
      simp only [List.foldl_cons]
      obtain ⟨h1, h2⟩ := step s.1 s.2 b hl hr
      exact ih _ h1 h2

/-- Witness for C9 at a concrete backoff step. -/
theorem C9_witness :
    1000 ≤ markCompletedBackoff true 10000 2000 ∧
    markCompletedBackoff true 10000 2000 ≤ 30000 :=
  C9_backoff_bounds.2.1 true 10000 2000 (by norm_num) (by norm_num)
/- ## Heap model of `ClockOperations.merge` (part_016)

To state the frame (purity) property of `merge`, `VectorClock` instances
live in an explicit heap of entry maps; `merge` reads its operands and only
ever writes into the freshly allocated result (`result.clock[nodeId] =
Math.max(...)`).  Instance entries are numbers (`Int`): every write into an
instance's `clock` in the source is a number.  The `otherClock` argument
may also be a raw object with arbitrary entry values, or invalid. -/

abbrev IClock := List (String × Int)
abbrev Heap := List IClock

/-- `this.vectorClock.clock[nodeId] || 0`. -/
def lookupI (m : IClock) (k : String) : Int := (m.lookup k).getD 0

/-- `typeof otherClockObj[nodeId] === "number" && !isNaN(...) ? v : 0`:
absent or non-numeric entries of a raw clock object read as 0. -/
def rawNum (o : List (String × JsVal)) (k : String) : Int :=
  match o.lookup k with
  | some (.num n) => n
  | _ => 0

/-- The `otherClock` argument of `merge`: a `VectorClock` instance (heap
reference), a plain object, or an invalid (null / non-object) value. -/
inductive MergeArg where
  | ref (j : Nat)
  | raw (o : List (String × JsVal))
  | invalid

/-- `ClockOperations.merge` on the heap: allocate a fresh result clock
holding the pointwise maximum over the union of keys; an invalid other
falls back to `clone()` (also a fresh allocation). -/
def mergeHeap (h : Heap) (i : Nat) (other : MergeArg) : Heap × Nat :=
  match other with
  | .invalid => (h ++ [(h.get? i).getD []], h.length)
  | .ref j =>
      (h ++ [((((h.get? i).getD []).map Prod.fst ++
          (((h.get? j).getD []).map Prod.fst)).dedup).map
        fun k => (k, max (lookupI ((h.get? i).getD []) k)
          (lookupI ((h.get? j).getD []) k))], h.length)
  | .raw o =>
      (h ++ [((((h.get? i).getD []).map Prod.fst ++
          o.map Prod.fst).dedup).map
        fun k => (k, max (lookupI ((h.get? i).getD []) k) (rawNum o k))],
        h.length)

theorem lookupI_eq_zero_of_not_mem {m : IClock} {k : String}
    (h : k ∉ m.map Prod.fst) : lookupI m k = 0 := by
  induction m with
  | nil => rfl
  | cons p ps ih =>
      simp only [List.map_cons, List.mem_cons, not_or] at h
      simp only [lookupI, List.lookup]
      have hb : (k == p.1) = false := by
        simp only [beq_eq_false_iff_ne]; exact h.1
      rw [hb]
      exact ih h.2

theorem lookup_mapKeyFn (f : String → Int) (k : String) :
    ∀ ks : List String,
      ((ks.map fun k => (k, f k)).lookup k) =
        if k ∈ ks then some (f k) else none := by
  intro ks
  induction ks with
  | nil => simp
  | cons c cs ih =>
      by_cases hk : k = c
      · subst hk
        simp [List.lookup]
      · have hb : (k == c) = false := by
          simp only [beq_eq_false_iff_ne]; exact hk
        simp only [List.map_cons, List.lookup, hb, ih]
        by_cases hm : k ∈ cs <;> simp [hm, hk]

/- ### Claim C10 -/

/-- C10: `merge` is pure with respect to its operands: it returns a freshly
allocated clock (a new heap cell at a fresh index), every old heap cell —
in particular both operands — is unchanged, and the new clock maps each
node id to the maximum of the operands' entries, absent keys reading as 0,
with the key set being exactly the union of the operands' key sets. -/
theorem C10_merge_pure (h : Heap) (i j : Nat)
    (hi : i < h.length) (hj : j < h.length) :
    (mergeHeap h i (.ref j)).2 = h.length ∧
    (mergeHeap h i (.ref j)).1.length = h.length + 1 ∧
    (∀ l : Nat, l < h.length →
      (mergeHeap h i (.ref j)).1.get? l = h.get? l) ∧
    (∀ k : String,
      lookupI (((mergeHeap h i (.ref j)).1.get?
          (mergeHeap h i (.ref j)).2).getD []) k =
        max (lookupI ((h.get? i).getD []) k)
          (lookupI ((h.get? j).getD []) k)) ∧
    (∀ k : String,
      k ∈ (((mergeHeap h i (.ref j)).1.get?
          (mergeHeap h i (.ref j)).2).getD []).map Prod.fst ↔
        k ∈ ((h.get? i).getD []).map Prod.fst ∨
          k ∈ ((h.get? j).getD []).map Prod.fst) := by
  refine ⟨rfl, by simp [mergeHeap], ?_, ?_, ?_⟩
  · intro l hl
    show ((h ++ [_]).get? l) = h.get? l
    exact List.get?_append hl
  · intro k
    show lookupI (((h ++ [_]).get? h.length).getD []) k = _
    rw [List.get?_concat_length]
    simp only [Option.getD_some]
    rw [lookupI, lookup_mapKeyFn]
    split
    · simp
    · rename_i hmem
      simp only [List.mem_dedup, List.mem_append] at hmem
      push_neg at hmem
      rw [Option.getD_none,
        lookupI_eq_zero_of_not_mem hmem.1,
        lookupI_eq_zero_of_not_mem hmem.2]
      simp
  · intro k
    show k ∈ ((((h ++ [_]).get? h.length).getD []).map Prod.fst) ↔ _
    rw [List.get?_concat_length]
    simp only [Option.getD_some, List.map_map]
    simp [List.mem_dedup]

/-- Witness for C10 at a concrete heap. -/
theorem C10_witness :
    (mergeHeap [[("a", 1)], [("b", 2)]] 0 (.ref 1)).2 = 2 ∧
    (mergeHeap [[("a", 1)], [("b", 2)]] 0 (.ref 1)).1.length = 3 ∧
    (∀ l : Nat, l < 2 →
      (mergeHeap [[("a", 1)], [("b", 2)]] 0 (.ref 1)).1.get? l =
        ([[("a", 1)], [("b", 2)]] : Heap).get? l) ∧
    (∀ k : String,
      lookupI (((mergeHeap [[("a", 1)], [("b", 2)]] 0 (.ref 1)).1.get?
          (mergeHeap [[("a", 1)], [("b", 2)]] 0 (.ref 1)).2).getD []) k =
        max (lookupI [("a", 1)] k) (lookupI [("b", 2)] k)) ∧
    (∀ k : String,
      k ∈ (((mergeHeap [[("a", 1)], [("b", 2)]] 0 (.ref 1)).1.get?
          (mergeHeap [[("a", 1)], [("b", 2)]] 0 (.ref 1)).2).getD []).map
            Prod.fst ↔
        k ∈ ([("a", 1)] : IClock).map Prod.fst ∨
          k ∈ ([("b", 2)] : IClock).map Prod.fst) :=
  C10_merge_pure [[("a", 1)], [("b", 2)]] 0 1 (by decide) (by decide)
/- ## JSON (node builtin, modelled from the spec)

`JSON.stringify` / `JSON.parse` as used by the security envelope.  The
model covers the JSON fragment the envelope produces: integers, the two
common string escapes, and no floating-point forms. -/

/-- String escaping of `JSON.stringify` (quote and backslash). -/
def escChars : List Char → List Char
  | [] => []
  | c :: cs =>
      (if c = '"' then ['\\', '"']
       else if c = '\\' then ['\\', '\\'] else [c]) ++ escChars cs

mutual

/-- `JSON.stringify`. -/
def stringify : JsVal → String
  | .null => "null"
  | .bool true => "true"
  | .bool false => "false"
  | .num n => toString n
  | .str s => "\"" ++ String.mk (escChars s.data) ++ "\""
  | .arr xs => "[" ++ stringifyItems xs ++ "]"
  | .obj fs => "\x7b" ++ stringifyFields fs ++ "\x7d"

def stringifyItems : List JsVal → String
  | [] => ""
  | [x] => stringify x
  | x :: y :: rest => stringify x ++ "," ++ stringifyItems (y :: rest)

def stringifyFields : List (String × JsVal) → String
  | [] => ""
  | [(k, v)] => "\"" ++ String.mk (escChars k.data) ++ "\":" ++ stringify v
  | (k, v) :: q :: rest =>
      "\"" ++ String.mk (escChars k.data) ++ "\":" ++ stringify v ++ "," ++
        stringifyFields (q :: rest)

end

/-- JSON whitespace. -/
def skipWs (cs : List Char) : List Char :=
  cs.dropWhile fun c => c == ' ' || c == '\n' || c == '\t' || c == '\r'

/-- Parse a JSON string body (after the opening quote) up to the closing
quote, honouring the common escapes. -/
def parseStrChars : Nat → List Char → Option (List Char × List Char)
  | 0, _ => none
  | _, [] => none
  | f + 1, c :: rest =>
      if c = '"' then some ([], rest)
      else if c = '\\' then
        match rest with
        | [] => none
        | e :: rest2 =>
            match (if e = '"' then some '"'
                   else if e = '\\' then some '\\'
                   else if e = '/' then some '/'
                   else if e = 'n' then some '\n'
                   else if e = 't' then some '\t'
                   else none) with
            | none => none
            | some d =>
                match parseStrChars f rest2 with
                | none => none
                | some (s, r) => some (d :: s, r)
      else
        match parseStrChars f rest with
        | none => none
        | some (s, r) => some (c :: s, r)

def digitsToNat (ds : List Char) : Nat :=
  ds.foldl (fun acc c => acc * 10 + (c.toNat - 48)) 0

/-- Parse a JSON integer (floating-point forms are out of the model). -/
def parseNum (cs : List Char) : Option (Int × List Char) :=
  match cs with
  | '-' :: cs1 =>
      match cs1.span (fun c => c.isDigit) with
      | ([], _) => none
      | (ds, rest) =>
          match rest with
          | c :: _ =>
              if c = '.' || c = 'e' || c = 'E' then none
              else some (-(digitsToNat ds : Int), rest)
          | [] => some (-(digitsToNat ds : Int), rest)
  | _ =>
      match cs.span (fun c => c.isDigit) with
      | ([], _) => none
      | (ds, rest) =>
          match rest with
          | c :: _ =>
              if c = '.' || c = 'e' || c = 'E' then none
              else some ((digitsToNat ds : Int), rest)
          | [] => some ((digitsToNat ds : Int), rest)

mutual

/-- `JSON.parse` value grammar, fuel-bounded. -/
def parseVal : Nat → List Char → Option (JsVal × List Char)
  | 0, _ => none
  | f + 1, cs0 =>
      match skipWs cs0 with
      | [] => none
      | c :: rest =>
          if c = 'n' then
            if ['u', 'l', 'l'].isPrefixOf rest then
              some (.null, rest.drop 3)
            else none
          else if c = 't' then
            if ['r', 'u', 'e'].isPrefixOf rest then
              some (.bool true, rest.drop 3)
            else none
          else if c = 'f' then
            if ['a', 'l', 's', 'e'].isPrefixOf rest then
              some (.bool false, rest.drop 4)
            else none
          else if c = '"' then
            match parseStrChars f rest with
            | none => none
            | some (s, r) => some (.str (String.mk s), r)
          else if c = '[' then
            match skipWs rest with
            | ']' :: r2 => some (.arr [], r2)
            | _ =>
                match parseItems f rest with
                | none => none
                | some (xs, r2) => some (.arr xs, r2)
          else if c = '\x7b' then
            match skipWs rest with
            | '\x7d' :: r2 => some (.obj [], r2)
            | _ =>
                match parseFields f rest with
                | none => none
                | some (fs, r2) => some (.obj fs, r2)
          else
            match parseNum (c :: rest) with
            | none => none
            | some (n, r) => some (.num n, r)

/-- Comma-separated array items up to `]`. -/
def parseItems : Nat → List Char → Option (List JsVal × List Char)
  | 0, _ => none
  | f + 1, cs =>
      match parseVal f cs with
      | none => none
      | some (v, r) =>
          match skipWs r with
          | ',' :: r2 =>
              match parseItems f r2 with
              | none => none
              | some (xs, r3) => some (v :: xs, r3)
          | ']' :: r2 => some ([v], r2)
          | _ => none

/-- Comma-separated object fields up to the closing brace. -/
def parseFields : Nat → List Char → Option (List (String × JsVal) × List Char)
  | 0, _ => none
  | f + 1, cs =>
      match skipWs cs with
      | '"' :: r0 =>
          match parseStrChars f r0 with
          | none => none
          | some (k, r1) =>
              match skipWs r1 with
              | ':' :: r2 =>
                  match parseVal f r2 with
                  | none => none
                  | some (v, r3) =>
                      match skipWs r3 with
                      | ',' :: r4 =>
                          match parseFields f r4 with
                          | none => none
                          | some (fs, r5) => some ((String.mk k, v) :: fs, r5)
                      | '\x7d' :: r4 => some ([(String.mk k, v)], r4)
                      | _ => none
              | _ => none
      | _ => none

end

/-- `JSON.parse`: a full-input parse of the value grammar. -/
def parseJSON (s : String) : Option JsVal :=
  match parseVal (s.data.length + 1) s.data with
  | some (v, rest) => if skipWs rest = [] then some v else none
  | none => none
/- ## Security envelope (src/core/security/index.js)

The node `crypto` primitives are modelled from the spec: PBKDF2 key
derivation is an injective pairing of master key and salt; AES-256-GCM is
an ideal authenticated cipher — the ciphertext carries the plaintext bytes
and the auth tag binds derived key, iv and ciphertext, so decryption
succeeds exactly when all of them are consistent.  `Buffer.from(s, "utf8")`
and `buf.toString("utf8")` are modelled as the code-point encoding. -/

def strBytes (s : String) : List Nat := s.data.map Char.toNat

def bytesToStr (b : List Nat) : String := String.mk (b.map Char.ofNat)

/-- `_deriveKey`: PBKDF2(masterKey, salt) modelled as the pair itself. -/
structure DerivedKey where
  masterKey : String
  salt : String
  deriving DecidableEq

/-- The GCM authentication tag, idealized. -/
structure IdealTag where
  key : DerivedKey
  iv : String
  ct : List Nat
  deriving DecidableEq

/-- The encrypted envelope `{encrypted: true, salt, iv, authTag,
ciphertext, algorithm, isBuffer}` (base64 of the binary fields elided;
`algorithm` is constant). -/
structure Envelope where
  encrypted : Bool
  salt : String
  iv : String
  authTag : IdealTag
  ciphertext : List Nat
  isBuffer : Bool

/-- An encryptable payload: a JS value (string, object, ...) or a raw byte
buffer. -/
inductive Payload where
  | pval (v : JsVal)
  | pbuf (b : List Nat)

/-- `encrypt`'s result: the plain passthrough when disabled, or the
envelope. -/
inductive EncResult where
  | plain (data : Payload)
  | enc (e : Envelope)

/-- What `decrypt` returns: a buffer, a string, or a JSON-parsed value. -/
inductive DecOut where
  | dstr (s : String)
  | djson (v : JsVal)
  | dbuf (b : List Nat)

/-- The relevant `SecurityManager` options. -/
structure SecCfg where
  masterKey : String
  enabled : Bool

def deriveKey (masterKey salt : String) : DerivedKey := ⟨masterKey, salt⟩

/-- The serialization step of `encrypt`: a buffer passes through with the
`isBuffer` hint; an object is `JSON.stringify`-ed; anything else goes
through `String(data)` (the identity on strings). -/
def serializePayload : Payload → Bool × List Nat
  | .pbuf b => (true, b)
  | .pval (.str s) => (false, strBytes s)
  | .pval v => (false, strBytes (stringify v))

/-- `SecurityManager.encrypt`; the random salt and iv are inputs. -/
def encryptSec (cfg : SecCfg) (salt iv : String) (data : Payload) :
    EncResult :=
  if cfg.enabled = false then .plain data
  else
    .enc ⟨true, salt, iv,
      ⟨deriveKey cfg.masterKey salt, iv, (serializePayload data).2⟩,
      (serializePayload data).2, (serializePayload data).1⟩

/-- `SecurityManager.decrypt` on an envelope: re-derive the key from the
carried salt, verify the tag (GCM), then return the buffer, the
JSON-parsed value when the plaintext looks like JSON (a failed parse falls
back to the raw buffer), or the string. -/
def decryptSec (cfg : SecCfg) (e : Envelope) : Except Unit DecOut :=
  if cfg.enabled = false then .error ()
  else if e.authTag = ⟨deriveKey cfg.masterKey e.salt, e.iv, e.ciphertext⟩
  then
    if e.isBuffer then .ok (.dbuf e.ciphertext)
    else
      if jsStartsWith (bytesToStr e.ciphertext) "\x7b" ||
         jsStartsWith (bytesToStr e.ciphertext) "[" then
        match parseJSON (bytesToStr e.ciphertext) with
        | some v => .ok (.djson v)
        | none => .ok (.dbuf e.ciphertext)
      else .ok (.dstr (bytesToStr e.ciphertext))
  else .error ()

theorem bytesToStr_strBytes (s : String) : bytesToStr (strBytes s) = s := by
  have h : ∀ l : List Char, (l.map Char.toNat).map Char.ofNat = l := by
    intro l
    induction l with
    | nil => rfl
    | cons c cs ih => simp [ih, Char.ofNat_toNat]
  cases s with
  | mk data => exact congrArg String.mk (h data)

/-- Objects and arrays serialize to a string starting with a brace or a
bracket. -/
def JsVal.isObjLike : JsVal → Bool
  | .obj _ => true
  | .arr _ => true
  | _ => false

theorem stringify_objLike_starts {v : JsVal} (h : v.isObjLike = true) :
    (jsStartsWith (stringify v) "\x7b" ||
      jsStartsWith (stringify v) "[") = true := by
  cases v <;> simp [JsVal.isObjLike] at h <;>
    simp [stringify, jsStartsWith, String.data_append, List.isPrefixOf]

/- ### Claim C5 -/

/-- C5 (amended): with encryption enabled and the same key,
`decrypt(encrypt(x))` returns `x` for byte buffers, for strings that do
not start with `"\x7b"` or `"["`, and for JSON-serializable objects (those
whose JSON text parses back to themselves — the parsed value is returned);
a different master key, or tampering with the ciphertext, auth tag, salt
or iv, makes decryption fail.  (Strings that look like JSON come back
parsed, not as the original string: see the counterexample.) -/
theorem C5_envelope_roundtrip (cfg : SecCfg) (salt iv : String)
    (hen : cfg.enabled = true) :
    (∀ (b : List Nat) (e : Envelope),
      encryptSec cfg salt iv (.pbuf b) = .enc e →
        decryptSec cfg e = .ok (.dbuf b)) ∧
    (∀ (s : String) (e : Envelope),
      jsStartsWith s "\x7b" = false → jsStartsWith s "[" = false →
      encryptSec cfg salt iv (.pval (.str s)) = .enc e →
        decryptSec cfg e = .ok (.dstr s)) ∧
    (∀ (v : JsVal) (e : Envelope),
      v.isObjLike = true → parseJSON (stringify v) = some v →
      encryptSec cfg salt iv (.pval v) = .enc e →
        decryptSec cfg e = .ok (.djson v)) ∧
    (∀ (x : Payload) (e : Envelope), encryptSec cfg salt iv x = .enc e →
      (∀ ct2, ct2 ≠ e.ciphertext →
        decryptSec cfg { e with ciphertext := ct2 } = .error ()) ∧
      (∀ tg2, tg2 ≠ e.authTag →
        decryptSec cfg { e with authTag := tg2 } = .error ()) ∧
      (∀ s2, s2 ≠ e.salt →
        decryptSec cfg { e with salt := s2 } = .error ()) ∧
      (∀ i2, i2 ≠ e.iv →
        decryptSec cfg { e with iv := i2 } = .error ()) ∧
      (∀ cfg2 : SecCfg, cfg2.enabled = true →
        cfg2.masterKey ≠ cfg.masterKey →
          decryptSec cfg2 e = .error ())) := by
  have hne : ¬ cfg.enabled = false := by simp [hen]
  refine ⟨?_, ?_, ?_, ?_⟩
  · intro b e hE
    rw [encryptSec, if_neg hne] at hE
    cases hE
    rw [decryptSec, if_neg hne]
    simp [serializePayload]
  · intro s e h1 h2 hE
    rw [encryptSec, if_neg hne] at hE
    cases hE
    rw [decryptSec, if_neg hne]
    simp [serializePayload, bytesToStr_strBytes, h1, h2]
  · intro v e hobj hparse hE
    rw [encryptSec, if_neg hne] at hE
    cases hE
    rw [decryptSec, if_neg hne]
    have hser : (serializePayload (.pval v)).2 = strBytes (stringify v) := by
      cases v <;> simp_all [serializePayload, JsVal.isObjLike]
    have hbuf : (serializePayload (.pval v)).1 = false := by
      cases v <;> simp [serializePayload]
    simp [hser, hbuf, bytesToStr_strBytes, stringify_objLike_starts hobj,
      hparse]
  · intro x e hE
    rw [encryptSec, if_neg hne] at hE
    cases hE
    refine ⟨?_, ?_, ?_, ?_, ?_⟩
    · intro ct2 hct
      rw [decryptSec, if_neg hne]
      rw [if_neg (by
        intro hq
        simp only [IdealTag.mk.injEq] at hq
        exact hct hq.2.2.symm)]
    · intro tg2 htg
      rw [decryptSec, if_neg hne]
      rw [if_neg (by intro hq; exact htg hq)]
    · intro s2 hs
      rw [decryptSec, if_neg hne]
      rw [if_neg (by
        intro hq
        simp only [IdealTag.mk.injEq, deriveKey, DerivedKey.mk.injEq] at hq
        exact hs hq.1.2.symm)]
    · intro i2 hi
      rw [decryptSec, if_neg hne]
      rw [if_neg (by
        intro hq
        simp only [IdealTag.mk.injEq] at hq
        exact hi hq.2.1.symm)]
    · intro cfg2 hen2 hk
      rw [decryptSec, if_neg (by simp [hen2])]
      rw [if_neg (by
        intro hq
        simp only [IdealTag.mk.injEq, deriveKey, DerivedKey.mk.injEq] at hq
        exact hk hq.1.1.symm)]

/-- Witness for C5 at a concrete configuration and inputs. -/
theorem C5_witness :
    decryptSec ⟨"k1", true⟩
        ⟨true, "s", "i", ⟨⟨"k1", "s"⟩, "i", strBytes "hello"⟩,
          strBytes "hello", false⟩ = .ok (.dstr "hello") ∧
    decryptSec ⟨"k1", true⟩
        ⟨true, "s", "i", ⟨⟨"k1", "s"⟩, "i", [7, 200]⟩, [7, 200], true⟩ =
      .ok (.dbuf [7, 200]) ∧
    decryptSec ⟨"k1", true⟩
        ⟨true, "s", "i",
          ⟨⟨"k1", "s"⟩, "i", strBytes (stringify (.obj [("a", .num 1)]))⟩,
          strBytes (stringify (.obj [("a", .num 1)])), false⟩ =
      .ok (.djson (.obj [("a", .num 1)])) ∧
    decryptSec ⟨"k2", true⟩
        ⟨true, "s", "i", ⟨⟨"k1", "s"⟩, "i", strBytes "hello"⟩,
          strBytes "hello", false⟩ = .error () := by
  have h := C5_envelope_roundtrip ⟨"k1", true⟩ "s" "i" rfl
  refine ⟨?_, ?_, ?_, ?_⟩
  · exact h.2.1 "hello" _ (by decide) (by decide) rfl
  · exact h.1 [7, 200] _ rfl
  · exact h.2.2.1 (.obj [("a", .num 1)]) _ rfl (by rfl) rfl
  · exact (h.2.2.2 (.pval (.str "hello")) _ rfl).2.2.2.2 ⟨"k2", true⟩ rfl
      (by decide)

/-- C5 counterexample: a **string** payload that looks like JSON does not
round-trip: `decrypt(encrypt("[1]"))` returns the parsed array, not the
string `"[1]"`. -/
theorem C5_counterexample :
    encryptSec ⟨"k1", true⟩ "s" "i" (.pval (.str "[1]")) =
      .enc ⟨true, "s", "i", ⟨⟨"k1", "s"⟩, "i", strBytes "[1]"⟩,
        strBytes "[1]", false⟩ ∧
    decryptSec ⟨"k1", true⟩
        ⟨true, "s", "i", ⟨⟨"k1", "s"⟩, "i", strBytes "[1]"⟩,
          strBytes "[1]", false⟩ =
      .ok (.djson (.arr [.num 1])) ∧
    DecOut.djson (.arr [.num 1]) ≠ DecOut.dstr "[1]" := by
  refine ⟨rfl, by rfl, fun h => nomatch h⟩
